import Mathlib

/-!
# Web crawler: page analyzer, link probe, crawl orchestrator and event hub

A shallow embedding of `backend/internal/services/crawler.go`,
`internal/services/url.go`, `internal/websocket/hub.go` and the registration of clients in
`internal/handlers/websocket.go`.

Conventions of the embedding

* A parsed document (`*html.Node` of `golang.org/x/net/html`) is a finite rose tree.
  The `Parent` pointer of a node is passed down explicitly by the traversal. The Go
  field `Type` is written `Type_`.
* Go strings are Lean strings; Go `int` is `Int` (every counter is bounded by the
  number of nodes of the document, so the 64-bit wrap is never reached).
* A Go map `map[string]int` is a function `String → Option Int`; reading a key
  that is not in the map yields the zero value.
* `go f(x)` records the call in a list of spawned tasks; nothing of the spawned
  call is executed by the spawning function.
* What the code obtains from outside the repository (the Unicode case tables,
  `net/url`, the network, the clock, the database driver) is an explicit input.
* A `performCrawl` goroutine runs in two steps, up to its call of `CrawlURL` and from
  the return of that call on; other operations may come between the two.
* A `*Client` pointer is an address into a heap of client objects; a buffered channel is
  its capacity, its waiting messages and a closed flag, and a panic is the result `none`.
  The steps on the hub are atomic.
-/

namespace WebCrawler

/-! ## Go standard library: `strings` -/

/-- Go `unicode.IsSpace`: the Unicode White_Space property. -/
def isSpace (c : Char) : Bool :=
  let v := c.toNat
  (9 ≤ v && v ≤ 13) || v == 0x20 || v == 0x85 || v == 0xA0 || v == 0x1680 ||
    (0x2000 ≤ v && v ≤ 0x200A) || v == 0x2028 || v == 0x2029 || v == 0x202F ||
    v == 0x205F || v == 0x3000

/-- Go `strings.TrimSpace`: drop leading and trailing white space. -/
def TrimSpace (s : String) : String :=
  String.mk ((s.data.dropWhile isSpace).reverse.dropWhile isSpace).reverse

/-- Substring test on character lists. -/
def hasInfix (sub : List Char) : List Char → Bool
  | [] => sub.isEmpty
  | c :: cs => sub.isPrefixOf (c :: cs) || hasInfix sub cs

/-- Go `strings.Contains`. -/
def Contains (s sub : String) : Bool := hasInfix sub.data s.data

/-- Go `strings.ToLower`: ASCII letters are lowered arithmetically, every other rune goes
through the Unicode case tables, which are an input (`unicodeToLower`). -/
def ToLower (unicodeToLower : Char → Char) (s : String) : String :=
  String.mk (s.data.map (fun c => if c.toNat < 128 then c.toLower else unicodeToLower c))

/-! ## Go standard library: `net/url` -/

/-- The fields of `url.URL` that the crawler can observe. -/
structure URL where
  Scheme : String
  Host : String
  Path : String
  RawQuery : String
  Fragment : String
  deriving DecidableEq, Repr

/-- What the code calls outside the repository. -/
structure Env where
  /-- Go `unicode.ToLower` on runes above ASCII -/
  unicodeToLower : Char → Char
  /-- Go `url.Parse`; `none` is a parse error -/
  Parse : String → Option URL
  /-- Go `(*URL).ResolveReference`, receiver first -/
  ResolveReference : URL → URL → URL
  /-- Go `(*URL).String` -/
  urlString : URL → String

/-! ## `golang.org/x/net/html` nodes -/

inductive NodeType where
  | ErrorNode | TextNode | DocumentNode | ElementNode | CommentNode | DoctypeNode | RawNode
  deriving DecidableEq, Repr

structure Attribute where
  Namespace : String
  Key : String
  Val : String
  deriving DecidableEq, Repr

/-- An `html.Node` with its children in sibling order. -/
inductive Node where
  | mk (Type_ : NodeType) (Data : String) (Namespace : String) (Attr : List Attribute)
      (children : List Node)

namespace Node

def Type_ : Node → NodeType
  | mk t _ _ _ _ => t

def Data : Node → String
  | mk _ d _ _ _ => d

def Namespace : Node → String
  | mk _ _ ns _ _ => ns

def Attr : Node → List Attribute
  | mk _ _ _ a _ => a

def children : Node → List Node
  | mk _ _ _ _ cs => cs

def FirstChild (n : Node) : Option Node := n.children.head?

end Node

/-! ## models -/

structure BrokenLink where
  URL : String
  StatusCode : Int
  Error : String
  deriving DecidableEq, Repr

abbrev BrokenLinks := List BrokenLink

/-- The type `map[string]int`. -/
abbrev HeadingTags := String → Option Int

/-- The empty map, `make(models.HeadingTags)`. -/
def HeadingTags.empty : HeadingTags := fun _ => none

/-- Lookup `h[k]`: the value, or the zero value when `k` is not a key. -/
def HeadingTags.get (h : HeadingTags) (k : String) : Int := (h k).getD 0

/-- Increment `h[k]++`. -/
def HeadingTags.incr (h : HeadingTags) (k : String) : HeadingTags :=
  fun k' => if k' = k then some (HeadingTags.get h k + 1) else h k'

/-! ## crawler.go -/

structure CrawlResult where
  Title : String
  HTMLVersion : String
  HeadingTags : HeadingTags
  InternalLinks : Int
  ExternalLinks : Int
  BrokenLinks : BrokenLinks
  HasLoginForm : Bool
  Duration : Int

/-- The result under construction together with the link probes spawned so far:
`probes` lists, in spawn order, the argument of each `go s.checkBrokenLink(url, result)`. -/
structure CrawlState where
  result : CrawlResult
  probes : List String

/-- The `CrawlResult` literal of `CrawlURL`. -/
def CrawlResult.init : CrawlResult :=
  { Title := "", HTMLVersion := "", HeadingTags := HeadingTags.empty, InternalLinks := 0,
    ExternalLinks := 0, BrokenLinks := [], HasLoginForm := false, Duration := 0 }

def CrawlState.init : CrawlState := { result := CrawlResult.init, probes := [] }

/-- The doctype loop of `extractHTMLVersion` over the children of the parent. -/
def doctypeSaysHTML (E : Env) : List Node → Bool
  | [] => false
  | c :: cs =>
    if c.Type_ = NodeType.DoctypeNode ∧ Contains (ToLower E.unicodeToLower c.Data) "html" then true
    else doctypeSaysHTML E cs

/-- The attribute loop of `extractHTMLVersion`. -/
def xmlnsSaysXHTML : List Attribute → Bool
  | [] => false
  | a :: as => if a.Key = "xmlns" ∧ Contains a.Val "xhtml" then true else xmlnsSaysXHTML as

/-- The first block of `extractHTMLVersion`: the parent is a document node and the doctype
loop over its children returns. -/
def htmlDoctypeFound (E : Env) (parent : Option Node) : Bool :=
  match parent with
  | some p => p.Type_ = NodeType.DocumentNode && doctypeSaysHTML E p.children
  | none => false

def extractHTMLVersion (E : Env) (parent : Option Node) (n : Node) : String :=
  if htmlDoctypeFound E parent then "HTML5"
  else if xmlnsSaysXHTML n.Attr then "XHTML"
  else "HTML5"

/-- The attribute loop of `processLink`: the value of the first `href`. -/
def findHref : List Attribute → String
  | [] => ""
  | a :: as => if a.Key = "href" then a.Val else findHref as

def processLink (E : Env) (n : Node) (baseURL : String) (st : CrawlState) : CrawlState :=
  let href := findHref n.Attr
  if href = "" then st
  else
    match E.Parse baseURL with
    | none => st
    | some base =>
      match E.Parse href with
      | none => st
      | some linkURL =>
        let resolvedURL := E.ResolveReference base linkURL
        let r := st.result
        let r' :=
          if resolvedURL.Host = base.Host ∨ resolvedURL.Host = "" then
            { r with InternalLinks := r.InternalLinks + 1 }
          else
            { r with ExternalLinks := r.ExternalLinks + 1 }
        { result := r', probes := st.probes ++ [E.urlString resolvedURL] }

/-- Outcome of `client.Head(linkURL)`: an error text, or status code and status line. -/
abbrev ProbeOutcome := Except String (Int × String)

def checkBrokenLink (linkURL : String) (probe : ProbeOutcome) (result : CrawlResult) :
    CrawlResult :=
  match probe with
  | .error err =>
    { result with
      BrokenLinks := result.BrokenLinks ++ [{ URL := linkURL, StatusCode := 0, Error := err }] }
  | .ok (statusCode, status) =>
    if statusCode ≥ 400 then
      { result with
        BrokenLinks :=
          result.BrokenLinks ++ [{ URL := linkURL, StatusCode := statusCode, Error := status }] }
    else result

/-- The attribute loop of `checkFormFields`: later `type` / `name` attributes overwrite
earlier ones. The pair is `(inputType, inputName)`. -/
def inputAttrs : List Attribute → String × String → String × String
  | [], acc => acc
  | a :: as, (ty, nm) =>
    if a.Key = "type" then inputAttrs as (a.Val, nm)
    else if a.Key = "name" then inputAttrs as (ty, a.Val)
    else inputAttrs as (ty, nm)

/-- The test on one node in `checkFormFields`. The pair is `(hasPassword, hasUsername)`. -/
def checkFormFieldsNode (E : Env) (n : Node) (flags : Bool × Bool) : Bool × Bool :=
  if n.Type_ = NodeType.ElementNode ∧ n.Data = "input" then
    let (inputType, inputName) := inputAttrs n.Attr ("", "")
    let hasPassword := if inputType = "password" then true else flags.1
    let hasUsername :=
      if inputType = "text" ∨ inputType = "email" then
        let lowerName := ToLower E.unicodeToLower inputName
        if Contains lowerName "user" || Contains lowerName "email" || Contains lowerName "login"
        then true else flags.2
      else flags.2
    (hasPassword, hasUsername)
  else flags

mutual
def checkFormFields (E : Env) : Node → Bool × Bool → Bool × Bool
  | .mk t d ns a cs, flags =>
    checkFormFieldsChildren E cs (checkFormFieldsNode E (.mk t d ns a cs) flags)
def checkFormFieldsChildren (E : Env) : List Node → Bool × Bool → Bool × Bool
  | [], flags => flags
  | c :: cs, flags => checkFormFieldsChildren E cs (checkFormFields E c flags)
end

def isLoginForm (E : Env) (n : Node) : Bool :=
  let flags := checkFormFields E n (false, false)
  flags.1 && flags.2

def isHeading (tag : String) : Bool :=
  tag = "h1" ∨ tag = "h2" ∨ tag = "h3" ∨ tag = "h4" ∨ tag = "h5" ∨ tag = "h6"

/-- The `switch` of `extractData` on one node. -/
def extractDataNode (E : Env) (baseURL : String) (parent : Option Node) (n : Node)
    (st : CrawlState) : CrawlState :=
  if n.Type_ = NodeType.ElementNode then
    if n.Data = "html" then
      { st with result := { st.result with HTMLVersion := extractHTMLVersion E parent n } }
    else if n.Data = "title" then
      match n.FirstChild with
      | some c => { st with result := { st.result with Title := TrimSpace c.Data } }
      | none => st
    else if isHeading n.Data then
      { st with result :=
          { st.result with HeadingTags := HeadingTags.incr st.result.HeadingTags n.Data } }
    else if n.Data = "a" then processLink E n baseURL st
    else if n.Data = "form" then
      if isLoginForm E n then { st with result := { st.result with HasLoginForm := true } }
      else st
    else st
  else st

mutual
def extractData (E : Env) (baseURL : String) : Option Node → Node → CrawlState → CrawlState
  | parent, .mk t d ns a cs, st =>
    extractDataChildren E baseURL (some (.mk t d ns a cs)) cs
      (extractDataNode E baseURL parent (.mk t d ns a cs) st)
def extractDataChildren (E : Env) (baseURL : String) :
    Option Node → List Node → CrawlState → CrawlState
  | _, [], st => st
  | parent, c :: cs, st =>
    extractDataChildren E baseURL parent cs (extractData E baseURL parent c st)
end

/-- What `s.client.Get` hands back on success. -/
structure Response where
  StatusCode : Int
  Status : String
  /-- outcome of `html.Parse(resp.Body)`: a parse error, or the document node -/
  Body : Except String Node

/-- Outcome of `s.client.Get(targetURL)`. -/
abbrev FetchOutcome := Except String Response

/-- Function `CrawlURL`: `fetch` is what the GET produced and `elapsed` what `time.Since(startTime)`
measured. The returned state holds the result and the probes still running on it. -/
def CrawlURL (E : Env) (targetURL : String) (fetch : FetchOutcome) (elapsed : Int) :
    Except String CrawlState :=
  match fetch with
  | .error err => .error ("failed to fetch URL: " ++ err)
  | .ok resp =>
    if resp.StatusCode ≠ 200 then
      .error ("HTTP " ++ toString resp.StatusCode ++ ": " ++ resp.Status)
    else
      match resp.Body with
      | .error err => .error ("failed to parse HTML: " ++ err)
      | .ok doc =>
        let st := extractData E targetURL none doc CrawlState.init
        .ok { st with result := { st.result with Duration := elapsed } }

/-! ## models: the `urls` table -/

/-- A row of table `urls`; `none` is SQL `NULL`. -/
structure URLData where
  ID : String
  UserID : String
  URL : String
  Title : Option String
  Status : String
  HTMLVersion : Option String
  HeadingTags : Option HeadingTags
  InternalLinks : Option Int
  ExternalLinks : Option Int
  BrokenLinks : Option BrokenLinks
  HasLoginForm : Option Bool
  ErrorMessage : Option String
  AnalysisDuration : Option Int
  CreatedAt : Nat
  UpdatedAt : Nat

/-- The rows of table `urls`. -/
abbrev DB := List URLData

/-- Query `SELECT ... FROM urls WHERE id = ?` scanned as one row. -/
def DB.queryRow (db : DB) (urlID : String) : Option URLData :=
  db.find? (fun r => r.ID = urlID)

/-- Statement `UPDATE urls SET ... WHERE ...`; `dbErr` is the error of the driver, if it reports one. -/
def DB.execUpdate (db : DB) (dbErr : Option String) (sel : URLData → Bool)
    (set : URLData → URLData) : Except String DB :=
  match dbErr with
  | some e => .error e
  | none => .ok (db.map (fun r => if sel r then set r else r))

/-- Go `time.Duration.Milliseconds` of a duration in nanoseconds. -/
def Milliseconds (d : Int) : Int := Int.tdiv d 1000000

/-- The `SET` clause that `UpdateURLStatus` builds. -/
def updateURLStatusSet (status : String) (result : Option CrawlResult) (errorMsg : String)
    (now : Nat) (r : URLData) : URLData :=
  let r1 := { r with Status := status, UpdatedAt := now }
  let r2 :=
    match result with
    | some res =>
      { r1 with
        Title := some res.Title, HTMLVersion := some res.HTMLVersion,
        HeadingTags := some res.HeadingTags, InternalLinks := some res.InternalLinks,
        ExternalLinks := some res.ExternalLinks, BrokenLinks := some res.BrokenLinks,
        HasLoginForm := some res.HasLoginForm,
        AnalysisDuration := some (Milliseconds res.Duration) }
    | none => r1
  if errorMsg ≠ "" then { r2 with ErrorMessage := some errorMsg } else r2

def UpdateURLStatus (db : DB) (dbErr : Option String) (urlID status : String)
    (result : Option CrawlResult) (errorMsg : String) (now : Nat) : Except String DB :=
  db.execUpdate dbErr (fun r => r.ID = urlID) (updateURLStatusSet status result errorMsg now)

/-! ## url.go -/

structure WebSocketMessage where
  Type_ : String
  URL : String
  Status : String
  Data : Option CrawlResult
  Error : String
  Progress : Int
  Message : String
  Timestamp : Nat

/-- One call `s.hub.BroadcastToUser(userID, message)`. -/
structure Publish where
  userID : String
  message : WebSocketMessage

/-- The row that the `INSERT` of `CreateURL` stores: the six listed columns, every other
column at its default of the schema (`internal_links`, `external_links` 0,
`has_login_form` FALSE, the rest NULL). -/
def insertedRow (id userID url : String) (now : Nat) : URLData :=
  { ID := id, UserID := userID, URL := url, Title := none, Status := "queued",
    HTMLVersion := none, HeadingTags := none, InternalLinks := some 0,
    ExternalLinks := some 0, BrokenLinks := none, HasLoginForm := some false,
    ErrorMessage := none, AnalysisDuration := none, CreatedAt := now, UpdatedAt := now }

/-- Function `CreateURL`; `id` is the fresh `uuid.New().String()`. The insert fails on a driver
error and on a primary key that is already taken. -/
def CreateURL (db : DB) (dbErr : Option String) (userID url id : String) (now : Nat) :
    Except String DB :=
  match dbErr with
  | some e => .error e
  | none =>
    if (db.queryRow id).isSome then .error "Duplicate entry for key PRIMARY"
    else .ok (db ++ [insertedRow id userID url now])

/-- The orchestrator: the table, the `performCrawl` goroutines that were created and have
not run yet, the ones that published `crawl_started` and are inside `CrawlURL`, and the
`BroadcastToUser` calls made so far (oldest first). -/
structure Orchestrator where
  db : DB
  spawned : List String
  crawling : List (String × String × String)
  published : List Publish

def Orchestrator.init : Orchestrator := { db := [], spawned := [], crawling := [], published := [] }

def StartCrawling (s : Orchestrator) (dbErr : Option String) (userID urlID : String)
    (now : Nat) : Except String Orchestrator :=
  match s.db.execUpdate dbErr (fun r => r.ID = urlID ∧ r.UserID = userID)
      (fun r => { r with Status := "running", UpdatedAt := now }) with
  | .error e => .error e
  | .ok db => .ok { s with db := db, spawned := s.spawned ++ [urlID] }

def StopCrawling (s : Orchestrator) (dbErr : Option String) (userID urlID : String)
    (now : Nat) : Except String Orchestrator :=
  match s.db.execUpdate dbErr (fun r => r.ID = urlID ∧ r.UserID = userID)
      (fun r => { r with Status := "queued", UpdatedAt := now }) with
  | .error e => .error e
  | .ok db => .ok { s with db := db }

def RerunAnalysis (s : Orchestrator) (dbErr : Option String) (userID urlID : String)
    (now : Nat) : Except String Orchestrator :=
  match s.db.execUpdate dbErr (fun r => r.ID = urlID ∧ r.UserID = userID)
      (fun r =>
        { r with
          Status := "queued", Title := none, HTMLVersion := none, HeadingTags := none,
          InternalLinks := none, ExternalLinks := none, BrokenLinks := none,
          HasLoginForm := none, ErrorMessage := none, AnalysisDuration := none,
          UpdatedAt := now }) with
  | .error e => .error e
  | .ok db => .ok { s with db := db, spawned := s.spawned ++ [urlID] }

/-- Function `performCrawl` up to the call of `CrawlURL`: the row lookup (`none` when it fails, on a
driver error or a missing row) and the `crawl_started` broadcast. Yields `(url, userID)`
and the broadcast. -/
def performCrawlBegin (db : DB) (dbErr : Option String) (urlID : String) (now : Nat) :
    Option ((String × String) × List Publish) :=
  match dbErr with
  | some _ => none
  | none =>
    match db.queryRow urlID with
    | none => none
    | some row =>
      some ((row.URL, row.UserID),
        [{ userID := row.UserID,
           message :=
             { Type_ := "crawl_started", URL := row.URL, Status := "running", Data := none,
               Error := "", Progress := 0, Message := "Starting to crawl URL",
               Timestamp := now } }])

/-- The probes of a crawl that have appended to the shared result at some moment, in the
order of their appends. -/
def probesApplied (done : List (String × ProbeOutcome)) (result : CrawlResult) : CrawlResult :=
  done.foldl (fun r p => checkBrokenLink p.1 p.2 r) result

/-- Function `performCrawl` from the return of `CrawlURL` on. `crawl` is what `CrawlURL` returned;
`done1` are the probes that appended before the result is serialised for the broadcast,
`done2` the ones that appended after that and before `UpdateURLStatus` reads it. The error
of `UpdateURLStatus` is dropped, as in the source. -/
def performCrawlEnd (db : DB) (dbErr : Option String) (urlID url userID : String)
    (crawl : Except String CrawlState) (done1 done2 : List (String × ProbeOutcome))
    (tMsg tUpd : Nat) : List Publish × DB :=
  match crawl with
  | .error err =>
    ([{ userID := userID,
        message :=
          { Type_ := "crawl_error", URL := url, Status := "error", Data := none, Error := err,
            Progress := 0, Message := "Crawling failed", Timestamp := tMsg } }],
      match UpdateURLStatus db dbErr urlID "error" none err tUpd with
      | .ok db' => db'
      | .error _ => db)
  | .ok st =>
    let atBroadcast := probesApplied done1 st.result
    let atUpdate := probesApplied done2 atBroadcast
    ([{ userID := userID,
        message :=
          { Type_ := "crawl_completed", URL := url, Status := "completed",
            Data := some atBroadcast, Error := "", Progress := 0,
            Message := "Crawling completed successfully", Timestamp := tMsg } }],
      match UpdateURLStatus db dbErr urlID "completed" (some atUpdate) "" tUpd with
      | .ok db' => db'
      | .error _ => db)

/-- Everything one run of `performCrawl` needs from outside. -/
structure CrawlInputs where
  fetch : FetchOutcome
  elapsed : Int
  done1 : List (String × ProbeOutcome)
  done2 : List (String × ProbeOutcome)
  tMsg : Nat
  tUpd : Nat
  updErr : Option String

/-- Function `performCrawl` run without interruption on table `db`: the broadcasts it makes, in
order, and the table it leaves. -/
def performCrawl (E : Env) (db : DB) (lookupErr : Option String) (urlID : String)
    (tStart : Nat) (inp : CrawlInputs) : List Publish × DB :=
  match performCrawlBegin db lookupErr urlID tStart with
  | none => ([], db)
  | some ((url, userID), started) =>
    let fin := performCrawlEnd db inp.updErr urlID url userID
      (CrawlURL E url inp.fetch inp.elapsed) inp.done1 inp.done2 inp.tMsg inp.tUpd
    (started ++ fin.1, fin.2)

/-- The operations on the orchestrator: the four service calls, and the two halves of a
`performCrawl` goroutine, which other operations may separate. -/
inductive Op where
  | CreateURL (dbErr : Option String) (userID url id : String) (now : Nat)
  | StartCrawling (dbErr : Option String) (userID urlID : String) (now : Nat)
  | StopCrawling (dbErr : Option String) (userID urlID : String) (now : Nat)
  | RerunAnalysis (dbErr : Option String) (userID urlID : String) (now : Nat)
  /-- the `i`-th spawned goroutine runs up to its call of `CrawlURL` -/
  | taskBegin (i : Nat) (dbErr : Option String) (now : Nat)
  /-- The call of `CrawlURL` returns in the `i`-th crawling goroutine, which runs to its end -/
  | taskEnd (i : Nat) (inp : CrawlInputs)

/-- One operation; a service call that returns an error leaves the state as it was. -/
def step (E : Env) (s : Orchestrator) : Op → Orchestrator
  | .CreateURL dbErr userID url id now =>
    match CreateURL s.db dbErr userID url id now with
    | .ok db => { s with db := db }
    | .error _ => s
  | .StartCrawling dbErr userID urlID now =>
    match StartCrawling s dbErr userID urlID now with
    | .ok s' => s'
    | .error _ => s
  | .StopCrawling dbErr userID urlID now =>
    match StopCrawling s dbErr userID urlID now with
    | .ok s' => s'
    | .error _ => s
  | .RerunAnalysis dbErr userID urlID now =>
    match RerunAnalysis s dbErr userID urlID now with
    | .ok s' => s'
    | .error _ => s
  | .taskBegin i dbErr now =>
    match s.spawned.get? i with
    | none => s
    | some urlID =>
      match performCrawlBegin s.db dbErr urlID now with
      | none => { s with spawned := s.spawned.eraseIdx i }
      | some ((url, userID), started) =>
        { s with
          spawned := s.spawned.eraseIdx i,
          crawling := s.crawling ++ [(urlID, url, userID)],
          published := s.published ++ started }
  | .taskEnd i inp =>
    match s.crawling.get? i with
    | none => s
    | some (urlID, url, userID) =>
      let fin := performCrawlEnd s.db inp.updErr urlID url userID
        (CrawlURL E url inp.fetch inp.elapsed) inp.done1 inp.done2 inp.tMsg inp.tUpd
      { s with
        db := fin.2,
        crawling := s.crawling.eraseIdx i,
        published := s.published ++ fin.1 }

/-- The state after a sequence of operations from the empty orchestrator. -/
def run (E : Env) (ops : List Op) : Orchestrator := ops.foldl (step E) Orchestrator.init

/-! ## websocket: hub.go and the handler that registers clients -/

/-- A buffered Go channel of serialized messages: its capacity, the messages waiting in it
(oldest first), and whether it has been closed. -/
structure Chan where
  cap : Nat
  buf : List String
  closed : Bool
  deriving DecidableEq, Repr

/-- Go `make(chan []byte, n)`. -/
def Chan.make (n : Nat) : Chan := { cap := n, buf := [], closed := false }

/-- Go `close(ch)`; `none` is the panic on a channel that is already closed. -/
def Chan.close (ch : Chan) : Option Chan :=
  if ch.closed then none else some { ch with closed := true }

/-- Modelled from the spec: the `Client` type, whose declaration is not among the sources. A
subscriber is a live connection plus its owner identity and an outbound message queue of
bounded capacity; the fields kept here are those of the literal in `HandleWebSocket` that
the hub reads, the owner `UserID` and the queue `Send`. -/
structure Client where
  UserID : String
  Send : Chan
  deriving DecidableEq, Repr

/-- The hub and the clients it may point to: `heap p` is the `Client` object at address `p`,
addresses below `next` have been allocated, and `Clients` lists the keys of the map
`h.Clients`. The channels `Broadcast`, `Register` and `Unregister` are unbuffered; what
`Run` receives from them is the input of one iteration of its loop. -/
structure Hub where
  heap : Nat → Client
  next : Nat
  Clients : List Nat

/-- The hub of `NewHub()`, before any client exists. -/
def NewHub : Hub :=
  { heap := fun _ => { UserID := "", Send := Chan.make 0 }, next := 0, Clients := [] }

/-- The statement `delete(h.Clients, client)`. -/
def Hub.delete (h : Hub) (p : Nat) : Hub := { h with Clients := h.Clients.filter (fun q => q ≠ p) }

/-- The `select` of the two publish loops on client `p`: the send case when the channel has
room, else the `default` branch, which closes the channel and deletes the client from the
map. `none` is a panic: a send on a closed channel, or a close of a closed channel. -/
def trySend (h : Hub) (p : Nat) (messageBytes : String) : Option Hub :=
  let client := h.heap p
  if client.Send.closed then none
  else if client.Send.buf.length < client.Send.cap then
    some { h with
      heap := Function.update h.heap p
        { client with Send := { client.Send with buf := client.Send.buf ++ [messageBytes] } } }
  else
    match client.Send.close with
    | none => none
    | some ch => some ({ h with heap := Function.update h.heap p { client with Send := ch } }.delete p)

/-- The loop `for client := range h.Clients` of the `Broadcast` case of `Run`, over the keys
that the range yields. Each key of the map is yielded once, in an order Go leaves open. -/
def runBroadcastLoop (messageBytes : String) : List Nat → Hub → Option Hub
  | [], h => some h
  | p :: ps, h =>
    match trySend h p messageBytes with
    | none => none
    | some h2 => runBroadcastLoop messageBytes ps h2

/-- The loop `for client := range h.Clients` of `BroadcastToUser`. -/
def broadcastToUserLoop (userID messageBytes : String) : List Nat → Hub → Option Hub
  | [], h => some h
  | p :: ps, h =>
    if (h.heap p).UserID = userID then
      match trySend h p messageBytes with
      | none => none
      | some h2 => broadcastToUserLoop userID messageBytes ps h2
    else broadcastToUserLoop userID messageBytes ps h

/-- What one iteration of the loop of `Run` receives. -/
inductive Received where
  | Register (client : Nat)
  | Unregister (client : Nat)
  | Broadcast (message : WebSocketMessage)

/-- One iteration of the loop of `Run`; `jsonMarshal` is `json.Marshal`. `none` is a panic. -/
def Run (jsonMarshal : WebSocketMessage → Except String String) (h : Hub) :
    Received → Option Hub
  | .Register client =>
    some (if client ∈ h.Clients then h else { h with Clients := h.Clients ++ [client] })
  | .Unregister client =>
    if client ∈ h.Clients then
      match (h.heap client).Send.close with
      | none => none
      | some ch =>
        some { (h.delete client) with
          heap := Function.update h.heap client { h.heap client with Send := ch } }
    else some h
  | .Broadcast message =>
    match jsonMarshal message with
    | .error _ => some h
    | .ok messageBytes => runBroadcastLoop messageBytes h.Clients h

def BroadcastToUser (jsonMarshal : WebSocketMessage → Except String String) (h : Hub)
    (userID : String) (message : WebSocketMessage) : Option Hub :=
  match jsonMarshal message with
  | .error _ => some h
  | .ok messageBytes => broadcastToUserLoop userID messageBytes h.Clients h

/-- The handler `HandleWebSocket`: `token` is the outcome of the token check (the user of a
valid token, the empty user when no token was sent, an error for an invalid token) and
`upgraded` whether the upgrade of the connection succeeded. On success a new client with a
queue of 256 is allocated and handed to `Run` through `Register`. -/
def HandleWebSocket (jsonMarshal : WebSocketMessage → Except String String) (h : Hub)
    (token : Except String String) (upgraded : Bool) : Option Hub :=
  match token with
  | .error _ => some h
  | .ok userID =>
    if upgraded then
      Run jsonMarshal
        { h with
          heap := Function.update h.heap h.next { UserID := userID, Send := Chan.make 256 },
          next := h.next + 1 }
        (.Register h.next)
    else some h

/-- Modelled from the spec: the write pump of a connection, which is not among the sources,
takes the oldest waiting message out of the queue of its client for delivery. -/
def receive (h : Hub) (p : Nat) : Hub :=
  { h with
    heap := Function.update h.heap p
      { h.heap p with Send := { (h.heap p).Send with buf := (h.heap p).Send.buf.tail } } }

/-- The steps on the hub. -/
inductive HubOp where
  | HandleWebSocket (token : Except String String) (upgraded : Bool)
  | Unregister (client : Nat)
  | Broadcast (message : WebSocketMessage)
  | BroadcastToUser (userID : String) (message : WebSocketMessage)
  | receive (client : Nat)

/-- One step on the hub; `none` is a panic. -/
def hubStep (jsonMarshal : WebSocketMessage → Except String String) (h : Hub) :
    HubOp → Option Hub
  | .HandleWebSocket token upgraded => HandleWebSocket jsonMarshal h token upgraded
  | .Unregister client => Run jsonMarshal h (.Unregister client)
  | .Broadcast message => Run jsonMarshal h (.Broadcast message)
  | .BroadcastToUser userID message => BroadcastToUser jsonMarshal h userID message
  | .receive client => some (receive h client)

/-- The hub after a sequence of steps from the hub `h`; `none` when a step panics. -/
def hubRun (jsonMarshal : WebSocketMessage → Except String String) :
    List HubOp → Hub → Option Hub
  | [], h => some h
  | op :: ops, h =>
    match hubStep jsonMarshal h op with
    | none => none
    | some h2 => hubRun jsonMarshal ops h2

/-! ## Vocabulary of the specification -/

mutual
/-- All nodes of a tree in document (pre-)order, the root first. -/
def Node.preorder : Node → List Node
  | .mk t d ns a cs => .mk t d ns a cs :: preorderChildren cs
/-- Document order of a list of siblings. -/
def preorderChildren : List Node → List Node
  | [] => []
  | c :: cs => c.preorder ++ preorderChildren cs
end

mutual
/-- Document order, every node paired with its parent. -/
def walk : Option Node → Node → List (Option Node × Node)
  | parent, .mk t d ns a cs =>
    (parent, .mk t d ns a cs) :: walkChildren (some (.mk t d ns a cs)) cs
/-- Document order of a list of siblings below `parent`. -/
def walkChildren : Option Node → List Node → List (Option Node × Node)
  | _, [] => []
  | parent, c :: cs => walk parent c ++ walkChildren parent cs
end

/-- An element with the given tag. -/
def isElement (tag : String) (n : Node) : Bool :=
  n.Type_ = NodeType.ElementNode && n.Data = tag

/-- An element whose tag is one of `h1` .. `h6`. -/
def isHeadingElement (n : Node) : Bool :=
  n.Type_ = NodeType.ElementNode && isHeading n.Data

/-- Number of elements with the given tag anywhere in the tree. -/
def countTag (tag : String) (tree : Node) : Nat := tree.preorder.countP (isElement tag)

/-- Value of the first attribute with the given key; `none` when there is none. -/
def attrValue (key : String) (attrs : List Attribute) : Option String :=
  (attrs.find? (fun a => a.Key = key)).map (fun a => a.Val)

/-- Value of the last attribute with the given key, empty when there is none. -/
def lastAttrValue (key : String) (attrs : List Attribute) : String :=
  ((attrs.reverse.find? (fun a => a.Key = key)).map (fun a => a.Val)).getD ""

/-- Where the `href` of a node leads once resolved against `base`; `none` for a missing, an
empty and a malformed `href`. -/
def resolvedLink (E : Env) (base : URL) (n : Node) : Option URL :=
  match attrValue "href" n.Attr with
  | none => none
  | some href => if href = "" then none else (E.Parse href).map (E.ResolveReference base)

/-- An `a` element whose resolved host is the host of the base, or empty. -/
def isInternalLink (E : Env) (base : URL) (n : Node) : Bool :=
  isElement "a" n &&
    match resolvedLink E base n with
    | some u => u.Host = base.Host || u.Host = ""
    | none => false

/-- An `a` element whose resolved host is any other host. -/
def isExternalLink (E : Env) (base : URL) (n : Node) : Bool :=
  isElement "a" n &&
    match resolvedLink E base n with
    | some u => !(u.Host = base.Host || u.Host = "")
    | none => false

/-- An element with heading tag `L`: the nodes on which the visit runs `HeadingTags[L]++`. -/
def isHeadingTagged (L : String) (n : Node) : Bool :=
  isHeadingElement n && n.Data = L

/-- The type of an input: the value of its `type` attribute. Where the attribute is
repeated the loop of `checkFormFields` keeps the last value, as does this. -/
def inputType (n : Node) : String := lastAttrValue "type" n.Attr

/-- The name of an input: the value of its `name` attribute (the last, if repeated). -/
def inputName (n : Node) : String := lastAttrValue "name" n.Attr

/-- An input element of type `password`. -/
def isPasswordInput (n : Node) : Bool :=
  isElement "input" n && inputType n = "password"

/-- A name that, lowered, contains `user`, `email` or `login`. -/
def namesUser (E : Env) (name : String) : Bool :=
  Contains (ToLower E.unicodeToLower name) "user" ||
    Contains (ToLower E.unicodeToLower name) "email" ||
    Contains (ToLower E.unicodeToLower name) "login"

/-- An input element of type `text` or `email` whose name names a user. -/
def isUsernameInput (E : Env) (n : Node) : Bool :=
  isElement "input" n && (inputType n = "text" || inputType n = "email") &&
    namesUser E (inputName n)

/-- Text content of a node: the data of the text nodes below it, concatenated in document
order. -/
def textContent (n : Node) : String :=
  String.join ((n.preorder.filter (fun m => m.Type_ = NodeType.TextNode)).map Node.Data)

/-- The title as the specification words it: the trimmed text content of the first `title`
element in document order, empty when there is none. -/
def specTitle (tree : Node) : String :=
  match tree.preorder.find? (isElement "title") with
  | some t => TrimSpace (textContent t)
  | none => ""

/-- What the visit takes from a node as title text: for a `title` element with a child,
the data of its first child. -/
def titleText (n : Node) : Option String :=
  if isElement "title" n then n.FirstChild.map Node.Data else none

/-- The title texts of a tree in document order. -/
def titleTexts (tree : Node) : List String := tree.preorder.filterMap titleText

/-- The error text of an outcome, if it is an error. -/
def errorText {α : Type} : Except String α → Option String
  | .error e => some e
  | .ok _ => none

/-- The lifecycle kind and the addressee of a broadcast. -/
def Publish.kind (p : Publish) : String × String := (p.userID, p.message.Type_)

/-- All eight result columns of a row are set. -/
def hasResult (r : URLData) : Bool :=
  r.Title.isSome && r.HTMLVersion.isSome && r.HeadingTags.isSome && r.InternalLinks.isSome &&
    r.ExternalLinks.isSome && r.BrokenLinks.isSome && r.HasLoginForm.isSome &&
    r.AnalysisDuration.isSome

/-- All eight result columns of a row are `NULL`. -/
def resultEmpty (r : URLData) : Bool :=
  r.Title.isNone && r.HTMLVersion.isNone && r.HeadingTags.isNone && r.InternalLinks.isNone &&
    r.ExternalLinks.isNone && r.BrokenLinks.isNone && r.HasLoginForm.isNone &&
    r.AnalysisDuration.isNone

/-- The failure reason of a row is set. -/
def hasReason (r : URLData) : Bool := r.ErrorMessage.isSome

/-- The invariant as the specification words it, with `completed` and `error` the stored
names of the Completed and Failed status. -/
def specInvariant (r : URLData) : Prop :=
  (hasResult r = true ↔ r.Status = "completed") ∧
  (hasReason r = true ↔ r.Status = "error") ∧
  ¬ (hasResult r = true ∧ hasReason r = true) ∧
  (r.Status = "queued" ∨ r.Status = "running" → resultEmpty r = true ∧ hasReason r = false)

/-- The part of the invariant that every stored row keeps. -/
def rowInvariant (r : URLData) : Prop :=
  (r.Status = "completed" → hasResult r = true) ∧ (r.Status = "error" → hasReason r = true)

/-- The queue of a client has room for one more message. -/
def hasRoom (c : Client) : Bool := c.Send.buf.length < c.Send.cap

/-- A client after a publish offered it one message: the message is appended when the queue
has room, otherwise the queue is closed. -/
def Client.offered (c : Client) (messageBytes : String) : Client :=
  if hasRoom c then { c with Send := { c.Send with buf := c.Send.buf ++ [messageBytes] } }
  else { c with Send := { c.Send with closed := true } }

/-- A publish loop over the keys `l` that offers the message to the clients selected by
`sel`; the two loops of the sources are the instances "every client" and "the clients of one
user". -/
def publishLoop (sel : Client → Bool) (messageBytes : String) : List Nat → Hub → Option Hub
  | [], h => some h
  | p :: ps, h =>
    if sel (h.heap p) then
      match trySend h p messageBytes with
      | none => none
      | some h2 => publishLoop sel messageBytes ps h2
    else publishLoop sel messageBytes ps h

/-- A hub as Go keeps it: the keys of the map are distinct, and every registered client has
been allocated and has an open queue. -/
def Hub.wellFormed (h : Hub) : Prop :=
  h.Clients.Nodup ∧ ∀ p ∈ h.Clients, p < h.next ∧ (h.heap p).Send.closed = false

/-- No queue holds more messages than its capacity. -/
def Hub.withinCapacity (h : Hub) : Prop :=
  ∀ p, (h.heap p).Send.buf.length ≤ (h.heap p).Send.cap

/-- What a publish that selects the clients `sel` must have done between the hub `h` before
and the hub `h2` after: a selected registered client whose queue had no room is out of the
map with its queue closed and its contents kept, one whose queue had room has the message
appended and stays registered with an open queue; a client that is not registered keeps its
state and stays out of the map. -/
def publishOutcome (sel : Client → Bool) (messageBytes : String) (h h2 : Hub) : Prop :=
  (∀ p ∈ h.Clients, sel (h.heap p) = true →
    (hasRoom (h.heap p) = false →
      p ∉ h2.Clients ∧ (h2.heap p).Send.closed = true ∧
        (h2.heap p).Send.buf = (h.heap p).Send.buf) ∧
    (hasRoom (h.heap p) = true →
      p ∈ h2.Clients ∧ (h2.heap p).Send.closed = false ∧
        (h2.heap p).Send.buf = (h.heap p).Send.buf ++ [messageBytes])) ∧
  (∀ p, p ∉ h.Clients → h2.heap p = h.heap p ∧ p ∉ h2.Clients)

/-- Between the hub `h` and a later hub `h2`, every client that existed and was out of the map
is still out of the map and its queue has not grown. -/
def removedStayOut (h h2 : Hub) : Prop :=
  ∀ p, p < h.next → p ∉ h.Clients →
    p ∉ h2.Clients ∧ (h2.heap p).Send.buf.length ≤ (h.heap p).Send.buf.length

/-- Two rows that differ at most in the result columns, the failure reason and the time of
the last update. -/
def differOnlyInResults (r1 r2 : URLData) : Prop :=
  r1.ID = r2.ID ∧ r1.UserID = r2.UserID ∧ r1.URL = r2.URL ∧ r1.Status = r2.Status ∧
    r1.CreatedAt = r2.CreatedAt

/-- Two rows of two tables that are the same row, or are both the job `urlID` of `userID`
and differ only in what an earlier run stored. -/
def sameUpToResults (userID urlID : String) (r1 r2 : URLData) : Prop :=
  r1 = r2 ∨ (r1.ID = urlID ∧ r1.UserID = userID ∧ differOnlyInResults r1 r2)

/-- Number of active execution tasks of a job: the `performCrawl` goroutines for it that
were created and have not finished. -/
def activeTasks (s : Orchestrator) (urlID : String) : Nat :=
  s.spawned.count urlID + (s.crawling.filter (fun t => t.1 = urlID)).length

/-- A row as a re-run leaves it: id, owner, URL and creation time kept, status `queued`,
every result column and the failure reason `NULL`, updated at `now`. -/
def clearedRow (now : Nat) (r : URLData) : URLData :=
  { ID := r.ID, UserID := r.UserID, URL := r.URL, Title := none, Status := "queued",
    HTMLVersion := none, HeadingTags := none, InternalLinks := none, ExternalLinks := none,
    BrokenLinks := none, HasLoginForm := none, ErrorMessage := none, AnalysisDuration := none,
    CreatedAt := r.CreatedAt, UpdatedAt := now }

/-- A row with a new status and update time, every other column as it was. -/
def withStatus (status : String) (now : Nat) (r : URLData) : URLData :=
  { ID := r.ID, UserID := r.UserID, URL := r.URL, Title := r.Title, Status := status,
    HTMLVersion := r.HTMLVersion, HeadingTags := r.HeadingTags,
    InternalLinks := r.InternalLinks, ExternalLinks := r.ExternalLinks,
    BrokenLinks := r.BrokenLinks, HasLoginForm := r.HasLoginForm,
    ErrorMessage := r.ErrorMessage, AnalysisDuration := r.AnalysisDuration,
    CreatedAt := r.CreatedAt, UpdatedAt := now }

/-- A row as a failed task leaves it: status `error`, the failure reason and the update time
written, every result column as it was. -/
def failedRow (err : String) (now : Nat) (r : URLData) : URLData :=
  { ID := r.ID, UserID := r.UserID, URL := r.URL, Title := r.Title, Status := "error",
    HTMLVersion := r.HTMLVersion, HeadingTags := r.HeadingTags,
    InternalLinks := r.InternalLinks, ExternalLinks := r.ExternalLinks,
    BrokenLinks := r.BrokenLinks, HasLoginForm := r.HasLoginForm,
    ErrorMessage := some err, AnalysisDuration := r.AnalysisDuration,
    CreatedAt := r.CreatedAt, UpdatedAt := now }

/-- A row as a successful task leaves it: status `completed`, all eight result columns and
the update time written, the failure reason as it was. -/
def succeededRow (res : CrawlResult) (now : Nat) (r : URLData) : URLData :=
  { ID := r.ID, UserID := r.UserID, URL := r.URL, Title := some res.Title,
    Status := "completed", HTMLVersion := some res.HTMLVersion,
    HeadingTags := some res.HeadingTags, InternalLinks := some res.InternalLinks,
    ExternalLinks := some res.ExternalLinks, BrokenLinks := some res.BrokenLinks,
    HasLoginForm := some res.HasLoginForm, ErrorMessage := r.ErrorMessage,
    AnalysisDuration := some (Milliseconds res.Duration), CreatedAt := r.CreatedAt,
    UpdatedAt := now }

/-! ## Sample inputs -/

/-- An element node in the HTML namespace. -/
def elem (tag : String) (attrs : List Attribute) (children : List Node) : Node :=
  .mk NodeType.ElementNode tag "" attrs children

/-- A text node. -/
def text (s : String) : Node := .mk NodeType.TextNode s "" [] []

/-- An attribute without namespace. -/
def attr (key val : String) : Attribute := { Namespace := "", Key := key, Val := val }

/-- A document node. -/
def document (children : List Node) : Node := .mk NodeType.DocumentNode "" "" [] children

/-- A stand-in for `url.Parse` on the sample inputs: absolute `https://host/path`
references and path-only references parse, a reference with a space does not. -/
def sampleParse (s : String) : Option URL :=
  if s.data.contains ' ' then none
  else if "https://".data.isPrefixOf s.data then
    let rest := s.data.drop 8
    some { Scheme := "https", Host := String.mk (rest.takeWhile (fun c => c != '/')),
           Path := String.mk (rest.dropWhile (fun c => c != '/')), RawQuery := "",
           Fragment := "" }
  else some { Scheme := "", Host := "", Path := s, RawQuery := "", Fragment := "" }

/-- A stand-in for `ResolveReference` on the sample inputs. -/
def sampleResolve (base ref : URL) : URL :=
  if ref.Host = "" then { base with Path := ref.Path } else ref

/-- An environment for the sample inputs. -/
def sampleEnv : Env :=
  { unicodeToLower := id, Parse := sampleParse, ResolveReference := sampleResolve,
    urlString := fun u => u.Scheme ++ "://" ++ u.Host ++ u.Path }

def sampleBase : URL :=
  { Scheme := "https", Host := "example.com", Path := "/", RawQuery := "", Fragment := "" }

/-- The page of the scenario: a title, two `h1`, a path-only link and a link to another
host, as `html.Parse` builds it. -/
def samplePage : Node :=
  document
    [elem "html" []
      [elem "head" [] [elem "title" [] [text "Test"]],
       elem "body" []
        [elem "h1" [] [text "A"], elem "h1" [] [text "B"],
         elem "a" [attr "href" "/x"] [text "x"],
         elem "a" [attr "href" "https://other.example/y"] [text "y"]]]]

/-- The response of the scenario: status 200 with the sample page as its body. -/
def sampleResponse : Response := { StatusCode := 200, Status := "200 OK", Body := .ok samplePage }

/-- A form with a text input named `username` and a password input. -/
def sampleLoginForm : Node :=
  elem "form" [attr "action" "/session"]
    [elem "input" [attr "type" "text", attr "name" "username"] [],
     elem "input" [attr "type" "password", attr "name" "pw"] []]

/-- A form with a password input only. -/
def samplePasswordOnlyForm : Node :=
  elem "form" [] [elem "input" [attr "type" "password", attr "name" "pw"] []]

/-- An element node in the SVG namespace. -/
def svgElem (tag : String) (attrs : List Attribute) (children : List Node) : Node :=
  .mk NodeType.ElementNode tag "svg" attrs children

/-- A page whose body holds an inline SVG image with a `title` of its own:
`<title>Home</title>` in the head, `<svg><title>Logo</title></svg>` in the body. -/
def pageWithSvgTitle : Node :=
  document
    [elem "html" []
      [elem "head" [] [elem "title" [] [text "Home"]],
       elem "body" [] [svgElem "svg" [] [svgElem "title" [] [text "Logo"]]]]]

/-- The root element of an XHTML 1.0 document. -/
def xhtmlRoot : Node :=
  elem "html" [attr "xmlns" "http://www.w3.org/1999/xhtml"]
    [elem "head" [] [elem "title" [] [text "Home"]], elem "body" [] []]

/-- An XHTML 1.0 Strict document as `html.Parse` builds it: the doctype node carries the
name `html` and the public and system identifiers, the root element the XHTML namespace. -/
def xhtmlDocument : Node :=
  document
    [.mk NodeType.DoctypeNode "html" ""
        [attr "public" "-//W3C//DTD XHTML 1.0 Strict//EN",
         attr "system" "http://www.w3.org/TR/xhtml1/DTD/xhtml1-strict.dtd"] [],
     xhtmlRoot]

/-- What `html.Parse` builds from an empty body. -/
def emptyPage : Node := document [elem "html" [] [elem "head" [] [], elem "body" [] []]]

/-- A response with status 204 and an empty body. -/
def noContentResponse : Response :=
  { StatusCode := 204, Status := "204 No Content", Body := .ok emptyPage }

/-- The table after `CreateURL` for one job of user `alice`. -/
def sampleDB : DB := [insertedRow "job-1" "alice" "https://example.com/" 0]

/-- A run of `performCrawl` in which the fetch answers with the page of the scenario. -/
def sampleInputs : CrawlInputs :=
  { fetch := .ok sampleResponse, elapsed := 1500000000, done1 := [], done2 := [], tMsg := 3,
    tUpd := 4, updErr := none }

/-- A run of `performCrawl` in which the fetch times out. -/
def sampleTimeout : CrawlInputs :=
  { fetch := .error "context deadline exceeded", elapsed := 30000000000, done1 := [],
    done2 := [], tMsg := 8, tUpd := 9, updErr := none }

/-- A job is created, started, completes, and is then stopped. -/
def stopAfterCompletion : List Op :=
  [.CreateURL none "alice" "https://example.com/" "job-1" 0,
   .StartCrawling none "alice" "job-1" 1,
   .taskBegin 0 none 2,
   .taskEnd 0 sampleInputs,
   .StopCrawling none "alice" "job-1" 5]

/-- A job is created, started, completes, is started again, and the second crawl fails. -/
def failAfterCompletion : List Op :=
  [.CreateURL none "alice" "https://example.com/" "job-1" 0,
   .StartCrawling none "alice" "job-1" 1,
   .taskBegin 0 none 2,
   .taskEnd 0 sampleInputs,
   .StartCrawling none "alice" "job-1" 6,
   .taskBegin 0 none 7,
   .taskEnd 0 sampleTimeout]

/-- A stand-in for `json.Marshal` on the sample messages. -/
def sampleMarshal (m : WebSocketMessage) : Except String String :=
  .ok (m.Type_ ++ " " ++ m.URL)

/-- The `crawl_started` message of the sample job. -/
def sampleMessage : WebSocketMessage :=
  { Type_ := "crawl_started", URL := "https://example.com/", Status := "running", Data := none,
    Error := "", Progress := 0, Message := "Starting to crawl URL", Timestamp := 2 }

/-- A hub with three registered clients: one of `alice` whose queue is full (address 0), one
of `bob` (address 1), and one that connected without a token (address 2). -/
def sampleHub : Hub :=
  { heap := fun p =>
      if p = 0 then
        { UserID := "alice", Send := { cap := 256, buf := List.replicate 256 "old", closed := false } }
      else if p = 1 then { UserID := "bob", Send := Chan.make 256 }
      else { UserID := "", Send := Chan.make 256 },
    next := 3,
    Clients := [0, 1, 2] }

/-- A completed row of the sample job with the given stored title and link count. -/
def completedRow (title : String) (links : Int) : URLData :=
  { insertedRow "job-1" "alice" "https://example.com/" 0 with
    Status := "completed", Title := some title, HTMLVersion := some "HTML5",
    HeadingTags := some HeadingTags.empty, InternalLinks := some links,
    ExternalLinks := some 0, BrokenLinks := some [], HasLoginForm := some false,
    AnalysisDuration := some 12, UpdatedAt := 4 }

/-- An orchestrator at rest whose table holds one row. -/
def atRest (r : URLData) : Orchestrator :=
  { db := [r], spawned := [], crawling := [], published := [] }

/-- What the probes of the two links of the sample page answer: 404 for the first, a
failed name lookup for the second. -/
def sampleProbeOutcomes : List (String × ProbeOutcome) :=
  [("https://example.com/x", .ok (404, "404 Not Found")),
   ("https://other.example/y", .error "dial tcp: lookup other.example: no such host")]

/-- A job is created and started, its task begins to crawl, and the job is started again
while it is running. -/
def startWhileRunning : List Op :=
  [.CreateURL none "alice" "https://example.com/" "job-1" 0,
   .StartCrawling none "alice" "job-1" 1,
   .taskBegin 0 none 2,
   .StartCrawling none "alice" "job-1" 6,
   .taskBegin 0 none 7]

/-- User `alice` creates a job; user `mallory` starts it, and the task that this dispatches
runs to its end. -/
def startByOtherUser : List Op :=
  [.CreateURL none "alice" "https://example.com/" "job-1" 0,
   .StartCrawling none "mallory" "job-1" 1,
   .taskBegin 0 none 2,
   .taskEnd 0 sampleInputs]

/-- An XHTML document without a doctype declaration. -/
def xhtmlNoDoctype : Node := document [xhtmlRoot]

/-! ## The traversal as a fold over document order -/

mutual
theorem map_snd_walk : ∀ (parent : Option Node) (n : Node),
    (walk parent n).map Prod.snd = n.preorder
  | parent, .mk t d ns a cs => by
    rw [walk, Node.preorder, List.map_cons, map_snd_walkChildren _ cs]
theorem map_snd_walkChildren : ∀ (parent : Option Node) (cs : List Node),
    (walkChildren parent cs).map Prod.snd = preorderChildren cs
  | _, [] => by rw [walkChildren, preorderChildren, List.map_nil]
  | parent, c :: cs => by
    rw [walkChildren, preorderChildren, List.map_append, map_snd_walk parent c,
      map_snd_walkChildren parent cs]
end

mutual
theorem extractData_eq_foldl (E : Env) (baseURL : String) :
    ∀ (parent : Option Node) (n : Node) (st : CrawlState),
      extractData E baseURL parent n st =
        (walk parent n).foldl (fun s x => extractDataNode E baseURL x.1 x.2 s) st
  | parent, .mk t d ns a cs, st => by
    rw [extractData, walk, List.foldl_cons, extractDataChildren_eq_foldl E baseURL _ cs]
theorem extractDataChildren_eq_foldl (E : Env) (baseURL : String) :
    ∀ (parent : Option Node) (cs : List Node) (st : CrawlState),
      extractDataChildren E baseURL parent cs st =
        (walkChildren parent cs).foldl (fun s x => extractDataNode E baseURL x.1 x.2 s) st
  | _, [], st => by rw [extractDataChildren, walkChildren, List.foldl_nil]
  | parent, c :: cs, st => by
    rw [extractDataChildren, walkChildren, List.foldl_append,
      extractData_eq_foldl E baseURL parent c, extractDataChildren_eq_foldl E baseURL parent cs]
end

/-- A projection that every step raises by one on the items satisfying `p`, and leaves
alone on the others, ends raised by the number of such items. -/
theorem foldl_counts {σ α : Type} (f : σ → α → σ) (proj : σ → Int) (p : α → Bool)
    (h : ∀ s x, proj (f s x) = proj s + (if p x then 1 else 0)) :
    ∀ (l : List α) (s : σ), proj (l.foldl f s) = proj s + (l.countP p : Nat) := by
  intro l
  induction l with
  | nil => intro s; simp
  | cons x xs ih =>
    intro s
    rw [List.foldl_cons, ih, h, List.countP_cons]
    by_cases hx : p x = true
    · simp [hx]; ring
    · simp [hx]

theorem countP_walk (q : Node → Bool) (parent : Option Node) (n : Node) :
    (walk parent n).countP (fun x => q x.2) = n.preorder.countP q := by
  rw [← map_snd_walk parent n, List.countP_map]
  rfl

/-- A counter that each visit raises by one on the nodes satisfying `p`, and leaves alone on
the others, ends raised by the number of such nodes in the tree. -/
theorem extractData_counts (E : Env) (baseURL : String) (proj : CrawlState → Int)
    (p : Node → Bool)
    (h : ∀ par n s, proj (extractDataNode E baseURL par n s) = proj s + (if p n then 1 else 0))
    (parent : Option Node) (tree : Node) (st : CrawlState) :
    proj (extractData E baseURL parent tree st) = proj st + (tree.preorder.countP p : Nat) := by
  rw [extractData_eq_foldl,
    foldl_counts (fun (s : CrawlState) (x : Option Node × Node) => extractDataNode E baseURL x.1 x.2 s)
      proj (fun x => p x.2) (fun s x => h x.1 x.2 s),
    countP_walk]

/-! ## Links -/

theorem findHref_eq (attrs : List Attribute) :
    findHref attrs = (attrValue "href" attrs).getD "" := by
  induction attrs with
  | nil => rfl
  | cons a as ih =>
    by_cases h : a.Key = "href"
    · simp [findHref, attrValue, List.find?_cons, h]
    · simpa [findHref, attrValue, List.find?_cons, h] using ih

/-- What `processLink` does, read off the resolved link of the node. -/
theorem processLink_eq (E : Env) (baseURL : String) (base : URL)
    (hbase : E.Parse baseURL = some base) (n : Node) (st : CrawlState) :
    processLink E n baseURL st =
      match resolvedLink E base n with
      | none => st
      | some u =>
        { result :=
            if u.Host = base.Host ∨ u.Host = "" then
              { st.result with InternalLinks := st.result.InternalLinks + 1 }
            else { st.result with ExternalLinks := st.result.ExternalLinks + 1 },
          probes := st.probes ++ [E.urlString u] } := by
  unfold processLink resolvedLink
  rw [findHref_eq]
  cases hv : attrValue "href" n.Attr with
  | none => simp
  | some href =>
    by_cases he : href = ""
    · simp [he]
    · cases hp : E.Parse href with
      | none => simp [he, hbase, hp]
      | some linkURL => simp [he, hbase, hp]

theorem isHeading_ne_a {tag : String} (h : isHeading tag = true) : tag ≠ "a" := by
  intro ha
  subst ha
  revert h
  decide

theorem extractDataNode_internal (E : Env) (baseURL : String) (base : URL)
    (hbase : E.Parse baseURL = some base) (parent : Option Node) (n : Node) (st : CrawlState) :
    (extractDataNode E baseURL parent n st).result.InternalLinks =
      st.result.InternalLinks + (if isInternalLink E base n then 1 else 0) := by
  unfold extractDataNode isInternalLink isElement
  by_cases ht : n.Type_ = NodeType.ElementNode
  · by_cases h1 : n.Data = "html"
    · simp [ht, h1]
    · by_cases h2 : n.Data = "title"
      · cases hc : n.FirstChild <;> simp [ht, h2, hc]
      · by_cases h3 : isHeading n.Data = true
        · simp [ht, h1, h2, h3, isHeading_ne_a h3]
        · by_cases h4 : n.Data = "a"
          · rw [if_pos ht, if_neg h1, if_neg h2, if_neg h3, if_pos h4,
              processLink_eq E baseURL base hbase]
            cases hr : resolvedLink E base n with
            | none => simp [ht, h4]
            | some u =>
              by_cases hh : u.Host = base.Host ∨ u.Host = ""
              · simp [ht, h4, hh]
              · simp [ht, h4, hh]
          · by_cases h5 : n.Data = "form"
            · have hf : isHeading "form" = false := by decide
              by_cases h6 : isLoginForm E n = true <;> simp [ht, h5, h6, hf]
            · simp [ht, h1, h2, h3, h4, h5]
  · simp [ht]

theorem extractDataNode_external (E : Env) (baseURL : String) (base : URL)
    (hbase : E.Parse baseURL = some base) (parent : Option Node) (n : Node) (st : CrawlState) :
    (extractDataNode E baseURL parent n st).result.ExternalLinks =
      st.result.ExternalLinks + (if isExternalLink E base n then 1 else 0) := by
  unfold extractDataNode isExternalLink isElement
  by_cases ht : n.Type_ = NodeType.ElementNode
  · by_cases h1 : n.Data = "html"
    · simp [ht, h1]
    · by_cases h2 : n.Data = "title"
      · cases hc : n.FirstChild <;> simp [ht, h2, hc]
      · by_cases h3 : isHeading n.Data = true
        · simp [ht, h1, h2, h3, isHeading_ne_a h3]
        · by_cases h4 : n.Data = "a"
          · rw [if_pos ht, if_neg h1, if_neg h2, if_neg h3, if_pos h4,
              processLink_eq E baseURL base hbase]
            cases hr : resolvedLink E base n with
            | none => simp [ht, h4]
            | some u =>
              by_cases hh : u.Host = base.Host ∨ u.Host = ""
              · have hh2 : ¬(¬u.Host = base.Host ∧ ¬u.Host = "") := by tauto
                simp [ht, h4, hh, hh2]
              · have hh2 : ¬u.Host = base.Host ∧ ¬u.Host = "" := by tauto
                simp [ht, h4, hh, hh2]
          · by_cases h5 : n.Data = "form"
            · have hf : isHeading "form" = false := by decide
              by_cases h6 : isLoginForm E n = true <;> simp [ht, h5, h6, hf]
            · simp [ht, h1, h2, h3, h4, h5]
  · simp [ht]

/-- C1: when the base URL parses, `extractData` from zero counters leaves in `InternalLinks`
the number of `a` elements whose `href` is non-empty, parses and resolves to the host of the
base or to an empty host, and in `ExternalLinks` the number of those resolving to any other
host. The two classes are disjoint and cover every anchor with a resolvable `href`; on a
node of either class the visit raises that counter by one and leaves the other; a missing,
empty or malformed `href` leaves the whole state as it was. -/
theorem C1_link_counts (E : Env) (baseURL : String) (base : URL) (parent : Option Node)
    (tree : Node) (hbase : E.Parse baseURL = some base) :
    (extractData E baseURL parent tree CrawlState.init).result.InternalLinks =
        (tree.preorder.countP (isInternalLink E base) : Nat) ∧
    (extractData E baseURL parent tree CrawlState.init).result.ExternalLinks =
        (tree.preorder.countP (isExternalLink E base) : Nat) ∧
    (∀ n, ¬(isInternalLink E base n = true ∧ isExternalLink E base n = true)) ∧
    (∀ n, isElement "a" n = true → resolvedLink E base n ≠ none →
        isInternalLink E base n = true ∨ isExternalLink E base n = true) ∧
    (∀ par n st, isInternalLink E base n = true →
        (extractDataNode E baseURL par n st).result.InternalLinks = st.result.InternalLinks + 1 ∧
        (extractDataNode E baseURL par n st).result.ExternalLinks = st.result.ExternalLinks) ∧
    (∀ par n st, isExternalLink E base n = true →
        (extractDataNode E baseURL par n st).result.ExternalLinks = st.result.ExternalLinks + 1 ∧
        (extractDataNode E baseURL par n st).result.InternalLinks = st.result.InternalLinks) ∧
    (∀ n st, attrValue "href" n.Attr = none ∨ attrValue "href" n.Attr = some "" ∨
          (∃ h, attrValue "href" n.Attr = some h ∧ E.Parse h = none) →
        processLink E n baseURL st = st) := by
  have hdisj : ∀ n, ¬(isInternalLink E base n = true ∧ isExternalLink E base n = true) := by
    intro n
    unfold isInternalLink isExternalLink
    cases resolvedLink E base n with
    | none => simp
    | some u => cases hb : (decide (u.Host = base.Host) || decide (u.Host = "")) <;> simp [hb]
  refine ⟨?_, ?_, hdisj, ?_, ?_, ?_, ?_⟩
  · rw [extractData_counts E baseURL (fun s => s.result.InternalLinks) (isInternalLink E base)
      (fun par n s => extractDataNode_internal E baseURL base hbase par n s)]
    simp [CrawlState.init, CrawlResult.init]
  · rw [extractData_counts E baseURL (fun s => s.result.ExternalLinks) (isExternalLink E base)
      (fun par n s => extractDataNode_external E baseURL base hbase par n s)]
    simp [CrawlState.init, CrawlResult.init]
  · intro n ha hr
    unfold isInternalLink isExternalLink
    cases hu : resolvedLink E base n with
    | none => exact absurd hu hr
    | some u => cases hb : (decide (u.Host = base.Host) || decide (u.Host = "")) <;> simp [ha, hb]
  · intro par n st hi
    have he : isExternalLink E base n = false := by
      cases h : isExternalLink E base n
      · rfl
      · exact absurd ⟨hi, h⟩ (hdisj n)
    rw [extractDataNode_internal E baseURL base hbase, extractDataNode_external E baseURL base hbase]
    simp [hi, he]
  · intro par n st he
    have hi : isInternalLink E base n = false := by
      cases h : isInternalLink E base n
      · rfl
      · exact absurd ⟨h, he⟩ (hdisj n)
    rw [extractDataNode_internal E baseURL base hbase, extractDataNode_external E baseURL base hbase]
    simp [hi, he]
  · intro n st h
    rw [processLink_eq E baseURL base hbase]
    unfold resolvedLink
    rcases h with h | h | ⟨href, h, hp⟩
    · simp [h]
    · simp [h]
    · by_cases he : href = "" <;> simp [h, hp, he]

/-- C1 on the sample page: one path-only link and one link to another host. -/
theorem C1_link_counts_witness :
    sampleEnv.Parse "https://example.com/" = some sampleBase ∧
    (extractData sampleEnv "https://example.com/" none samplePage CrawlState.init).result.InternalLinks
      = (1 : Nat) ∧
    (extractData sampleEnv "https://example.com/" none samplePage CrawlState.init).result.ExternalLinks
      = (1 : Nat) :=
  ⟨by decide,
   (C1_link_counts sampleEnv "https://example.com/" sampleBase none samplePage (by decide)).1,
   (C1_link_counts sampleEnv "https://example.com/" sampleBase none samplePage (by decide)).2.1⟩

/-! ## Headings -/

theorem processLink_headingTags (E : Env) (n : Node) (baseURL : String) (st : CrawlState) :
    (processLink E n baseURL st).result.HeadingTags = st.result.HeadingTags := by
  unfold processLink
  simp only []
  split
  · rfl
  · split
    · rfl
    · split
      · rfl
      · split <;> rfl

/-- The heading map after the visit of one node. -/
theorem extractDataNode_headingTags (E : Env) (baseURL : String) (parent : Option Node)
    (n : Node) (st : CrawlState) (L : String) :
    (extractDataNode E baseURL parent n st).result.HeadingTags L =
      if isHeadingTagged L n then some (HeadingTags.get st.result.HeadingTags L + 1)
      else st.result.HeadingTags L := by
  unfold extractDataNode isHeadingTagged isHeadingElement
  by_cases ht : n.Type_ = NodeType.ElementNode
  · by_cases h1 : n.Data = "html"
    · have hf : isHeading "html" = false := by decide
      simp [ht, h1, hf]
    · by_cases h2 : n.Data = "title"
      · have hf : isHeading "title" = false := by decide
        cases hc : n.FirstChild <;> simp [ht, h2, hc, hf]
      · by_cases h3 : isHeading n.Data = true
        · by_cases hL : n.Data = L
          · simp [ht, h1, h2, h3, hL.symm, HeadingTags.incr]
          · have hL2 : ¬ L = n.Data := fun h => hL h.symm
            simp [ht, h1, h2, h3, hL, hL2, HeadingTags.incr]
        · by_cases h4 : n.Data = "a"
          · rw [if_pos ht, if_neg h1, if_neg h2, if_neg h3, if_pos h4, processLink_headingTags]
            simp [h3]
          · by_cases h5 : n.Data = "form"
            · have hf : isHeading "form" = false := by decide
              by_cases h6 : isLoginForm E n = true <;> simp [ht, h5, h6, hf]
            · simp [ht, h1, h2, h3, h4, h5]
  · simp [ht]

theorem extractDataNode_headingGet (E : Env) (baseURL : String) (L : String)
    (parent : Option Node) (n : Node) (st : CrawlState) :
    HeadingTags.get (extractDataNode E baseURL parent n st).result.HeadingTags L =
      HeadingTags.get st.result.HeadingTags L + (if isHeadingTagged L n then 1 else 0) := by
  unfold HeadingTags.get
  rw [extractDataNode_headingTags]
  by_cases h : isHeadingTagged L n = true
  · simp [h, HeadingTags.get]
  · simp [h]

theorem isHeadingTagged_eq_isElement {L : String} (hL : isHeading L = true) (n : Node) :
    isHeadingTagged L n = isElement L n := by
  unfold isHeadingTagged isHeadingElement isElement
  by_cases h : n.Data = L
  · simp [h, hL]
  · simp [h]

theorem isHeadingTagged_of_not_heading {L : String} (hL : isHeading L = false) (n : Node) :
    isHeadingTagged L n = false := by
  unfold isHeadingTagged isHeadingElement
  by_cases h : n.Data = L
  · simp [h, hL]
  · simp [h]

/-- The heading count read at key `L` after the traversal. -/
theorem extractData_headingGet (E : Env) (baseURL : String) (L : String)
    (parent : Option Node) (tree : Node) (st : CrawlState) :
    HeadingTags.get (extractData E baseURL parent tree st).result.HeadingTags L =
      HeadingTags.get st.result.HeadingTags L + (tree.preorder.countP (isHeadingTagged L) : Nat) :=
  extractData_counts E baseURL (fun s => HeadingTags.get s.result.HeadingTags L)
    (isHeadingTagged L) (fun par n s => extractDataNode_headingGet E baseURL L par n s)
    parent tree st

theorem countP_headings (l : List Node) :
    l.countP (isElement "h1") + l.countP (isElement "h2") + l.countP (isElement "h3") +
      l.countP (isElement "h4") + l.countP (isElement "h5") + l.countP (isElement "h6") =
    l.countP isHeadingElement := by
  induction l with
  | nil => rfl
  | cons n ns ih =>
    simp only [List.countP_cons]
    rw [← ih]
    have key : (if isElement "h1" n = true then 1 else 0) + (if isElement "h2" n = true then 1 else 0) +
        (if isElement "h3" n = true then 1 else 0) + (if isElement "h4" n = true then 1 else 0) +
        (if isElement "h5" n = true then 1 else 0) + (if isElement "h6" n = true then 1 else 0) =
        (if isHeadingElement n = true then 1 else 0) := by
      unfold isElement isHeadingElement isHeading
      by_cases ht : n.Type_ = NodeType.ElementNode
      · by_cases h1 : n.Data = "h1"
        · simp [ht, h1]
        · by_cases h2 : n.Data = "h2"
          · simp [ht, h2]
          · by_cases h3 : n.Data = "h3"
            · simp [ht, h3]
            · by_cases h4 : n.Data = "h4"
              · simp [ht, h4]
              · by_cases h5 : n.Data = "h5"
                · simp [ht, h5]
                · by_cases h6 : n.Data = "h6"
                  · simp [ht, h6]
                  · simp [ht, h1, h2, h3, h4, h5, h6]
      · simp [ht]
    omega

/-- C2: after `extractData` from the empty heading map, the count read at each level
`h1` .. `h6` is the number of elements with that tag in the whole tree, every count is
non-negative, the six counts add up to the number of heading elements in the tree, and the
visit of a node that is not a heading element leaves the heading map as it was. -/
theorem C2_heading_counts (E : Env) (baseURL : String) (parent : Option Node) (tree : Node) :
    (∀ L, isHeading L = true →
      HeadingTags.get (extractData E baseURL parent tree CrawlState.init).result.HeadingTags L =
        (countTag L tree : Nat)) ∧
    (∀ L, 0 ≤ HeadingTags.get
      (extractData E baseURL parent tree CrawlState.init).result.HeadingTags L) ∧
    (HeadingTags.get (extractData E baseURL parent tree CrawlState.init).result.HeadingTags "h1" +
      HeadingTags.get (extractData E baseURL parent tree CrawlState.init).result.HeadingTags "h2" +
      HeadingTags.get (extractData E baseURL parent tree CrawlState.init).result.HeadingTags "h3" +
      HeadingTags.get (extractData E baseURL parent tree CrawlState.init).result.HeadingTags "h4" +
      HeadingTags.get (extractData E baseURL parent tree CrawlState.init).result.HeadingTags "h5" +
      HeadingTags.get (extractData E baseURL parent tree CrawlState.init).result.HeadingTags "h6" =
        (tree.preorder.countP isHeadingElement : Nat)) ∧
    (∀ par n st, isHeadingElement n = false →
      (extractDataNode E baseURL par n st).result.HeadingTags = st.result.HeadingTags) := by
  have hget : ∀ L, isHeading L = true →
      HeadingTags.get (extractData E baseURL parent tree CrawlState.init).result.HeadingTags L =
        (countTag L tree : Nat) := by
    intro L hL
    rw [extractData_headingGet, countTag,
      show isHeadingTagged L = isElement L from funext (isHeadingTagged_eq_isElement hL)]
    simp [CrawlState.init, CrawlResult.init, HeadingTags.get, HeadingTags.empty]
  refine ⟨hget, ?_, ?_, ?_⟩
  · intro L
    rw [extractData_headingGet]
    simp [CrawlState.init, CrawlResult.init, HeadingTags.get, HeadingTags.empty]
  · rw [hget "h1" (by decide), hget "h2" (by decide), hget "h3" (by decide),
      hget "h4" (by decide), hget "h5" (by decide), hget "h6" (by decide),
      ← countP_headings tree.preorder]
    simp only [countTag]
    push_cast
    rfl
  · intro par n st hn
    funext L
    rw [extractDataNode_headingTags]
    simp [isHeadingTagged, hn]

/-- Presence of a key after the traversal: it was there before, or a heading element with
that tag occurs. -/
theorem extractData_headingTags (E : Env) (baseURL : String) (L : String)
    (parent : Option Node) (tree : Node) (st : CrawlState) :
    (extractData E baseURL parent tree st).result.HeadingTags L =
      if tree.preorder.countP (isHeadingTagged L) = 0 then st.result.HeadingTags L
      else some (HeadingTags.get st.result.HeadingTags L +
        (tree.preorder.countP (isHeadingTagged L) : Nat)) := by
  have hfold : ∀ (l : List (Option Node × Node)) (s : CrawlState),
      (l.foldl (fun s x => extractDataNode E baseURL x.1 x.2 s) s).result.HeadingTags L =
        if l.countP (fun x => isHeadingTagged L x.2) = 0 then s.result.HeadingTags L
        else some (HeadingTags.get s.result.HeadingTags L +
          (l.countP (fun x => isHeadingTagged L x.2) : Nat)) := by
    intro l
    induction l with
    | nil => intro s; simp
    | cons x xs ih =>
      intro s
      rw [List.foldl_cons, ih, List.countP_cons, extractDataNode_headingTags,
        extractDataNode_headingGet]
      by_cases hx : isHeadingTagged L x.2 = true
      · by_cases hc : List.countP (fun x => isHeadingTagged L x.2) xs = 0
        · simp [hx, hc]
        · simp [hx, hc]; ring
      · by_cases hc : List.countP (fun x => isHeadingTagged L x.2) xs = 0
        · simp [hx, hc]
        · simp [hx, hc]
  rw [extractData_eq_foldl, hfold, countP_walk]

/-- C3, refuted as stated: for the page of the scenario, fetched with status 200, the
heading map of the result of `CrawlURL` has the entry `h1 ↦ 2` and no entry for `h2`. -/
theorem C3_counterexample :
    (CrawlURL sampleEnv "https://example.com/" (.ok sampleResponse) 0).toOption.map
        (fun st => (st.result.HeadingTags "h1", st.result.HeadingTags "h2")) =
      some (some 2, none) := by
  decide

/-- C3, amended: the heading map of the result of `extractData` from the empty map, and of an
accepted `CrawlURL`, has an entry exactly for the levels `h1` .. `h6` that occur in the tree,
holding the number of occurrences; a level that does not occur, and any other key, has no
entry (reading it yields the zero value). -/
theorem C3_heading_entries (E : Env) (baseURL : String) (parent : Option Node) (tree : Node)
    (status : String) (elapsed : Int) (L : String) :
    (extractData E baseURL parent tree CrawlState.init).result.HeadingTags L =
        (if isHeading L = true ∧ countTag L tree ≠ 0 then some (countTag L tree : Int) else none) ∧
    (CrawlURL E baseURL (.ok { StatusCode := 200, Status := status, Body := .ok tree })
        elapsed).toOption.map (fun st => st.result.HeadingTags L) =
      some (if isHeading L = true ∧ countTag L tree ≠ 0 then some (countTag L tree : Int)
        else none) := by
  have h : ∀ par, (extractData E baseURL par tree CrawlState.init).result.HeadingTags L =
      (if isHeading L = true ∧ countTag L tree ≠ 0 then some (countTag L tree : Int)
        else none) := by
    intro par
    rw [extractData_headingTags, countTag]
    by_cases hL : isHeading L = true
    · rw [show isHeadingTagged L = isElement L from funext (isHeadingTagged_eq_isElement hL)]
      by_cases hc : List.countP (isElement L) tree.preorder = 0
      · simp [hc, CrawlState.init, CrawlResult.init, HeadingTags.empty]
      · simp [hc, hL, CrawlState.init, CrawlResult.init, HeadingTags.empty, HeadingTags.get]
    · have hL2 : isHeading L = false := by simpa using hL
      rw [show isHeadingTagged L = fun _ => false from
        funext (isHeadingTagged_of_not_heading hL2)]
      simp [hL2, CrawlState.init, CrawlResult.init, HeadingTags.empty]
  refine ⟨h parent, ?_⟩
  simp only [CrawlURL]
  simp [Except.toOption, h none]

/-! ## Login forms -/

mutual
theorem checkFormFields_eq_foldl (E : Env) : ∀ (n : Node) (flags : Bool × Bool),
    checkFormFields E n flags = n.preorder.foldl (fun f m => checkFormFieldsNode E m f) flags
  | .mk t d ns a cs, flags => by
    rw [checkFormFields, Node.preorder, List.foldl_cons, checkFormFieldsChildren_eq_foldl E cs]
theorem checkFormFieldsChildren_eq_foldl (E : Env) : ∀ (cs : List Node) (flags : Bool × Bool),
    checkFormFieldsChildren E cs flags =
      (preorderChildren cs).foldl (fun f m => checkFormFieldsNode E m f) flags
  | [], flags => by rw [checkFormFieldsChildren, preorderChildren, List.foldl_nil]
  | c :: cs, flags => by
    rw [checkFormFieldsChildren, preorderChildren, List.foldl_append,
      checkFormFields_eq_foldl E c, checkFormFieldsChildren_eq_foldl E cs]
end

theorem inputAttrs_eq_aux (attrs : List Attribute) : ∀ (ty nm : String),
    inputAttrs attrs (ty, nm) =
      (((attrs.reverse.find? (fun a => a.Key = "type")).map (fun a => a.Val)).getD ty,
       ((attrs.reverse.find? (fun a => a.Key = "name")).map (fun a => a.Val)).getD nm) := by
  induction attrs with
  | nil => intro ty nm; rfl
  | cons a as ih =>
    intro ty nm
    have hne : ("type" : String) ≠ "name" := by decide
    by_cases h1 : a.Key = "type"
    · have h2 : ¬ a.Key = "name" := by rw [h1]; exact hne
      rw [inputAttrs, if_pos h1, ih]
      simp only [List.reverse_cons, List.find?_append]
      cases hf : List.find? (fun a => decide (a.Key = "type")) as.reverse <;>
        cases hg : List.find? (fun a => decide (a.Key = "name")) as.reverse <;>
        simp [List.find?_cons, h1, h2]
    · by_cases h2 : a.Key = "name"
      · rw [inputAttrs, if_neg h1, if_pos h2, ih]
        simp only [List.reverse_cons, List.find?_append]
        cases hf : List.find? (fun a => decide (a.Key = "type")) as.reverse <;>
          cases hg : List.find? (fun a => decide (a.Key = "name")) as.reverse <;>
          simp [List.find?_cons, h1, h2]
      · rw [inputAttrs, if_neg h1, if_neg h2, ih]
        simp only [List.reverse_cons, List.find?_append]
        cases hf : List.find? (fun a => decide (a.Key = "type")) as.reverse <;>
          cases hg : List.find? (fun a => decide (a.Key = "name")) as.reverse <;>
          simp [List.find?_cons, h1, h2]

theorem inputAttrs_eq (n : Node) : inputAttrs n.Attr ("", "") = (inputType n, inputName n) :=
  inputAttrs_eq_aux n.Attr "" ""

theorem checkFormFieldsNode_eq (E : Env) (n : Node) (flags : Bool × Bool) :
    checkFormFieldsNode E n flags =
      (flags.1 || isPasswordInput n, flags.2 || isUsernameInput E n) := by
  unfold checkFormFieldsNode isPasswordInput isUsernameInput isElement namesUser
  by_cases hn : n.Type_ = NodeType.ElementNode ∧ n.Data = "input"
  · rw [if_pos hn, inputAttrs_eq]
    obtain ⟨ht, hd⟩ := hn
    have hte : ("text" : String) ≠ "password" := by decide
    have hee : ("email" : String) ≠ "password" := by decide
    by_cases hp : inputType n = "password"
    · simp [ht, hd, hp]
    · by_cases hu : inputType n = "text" ∨ inputType n = "email"
      · cases hc : (Contains (ToLower E.unicodeToLower (inputName n)) "user" ||
            Contains (ToLower E.unicodeToLower (inputName n)) "email" ||
            Contains (ToLower E.unicodeToLower (inputName n)) "login") <;>
          rcases hu with hu | hu <;> simp [ht, hd, hp, hu, hc]
      · have hu1 : ¬ inputType n = "text" := fun h => hu (Or.inl h)
        have hu2 : ¬ inputType n = "email" := fun h => hu (Or.inr h)
        simp [ht, hd, hp, hu1, hu2]
  · rw [if_neg hn]
    have : (decide (n.Type_ = NodeType.ElementNode) && decide (n.Data = "input")) = false := by
      simpa using hn
    simp [this]

theorem foldl_flags (E : Env) : ∀ (l : List Node) (flags : Bool × Bool),
    l.foldl (fun f m => checkFormFieldsNode E m f) flags =
      (flags.1 || l.any isPasswordInput, flags.2 || l.any (isUsernameInput E)) := by
  intro l
  induction l with
  | nil => intro flags; simp
  | cons n ns ih =>
    intro flags
    rw [List.foldl_cons, ih, checkFormFieldsNode_eq]
    simp [Bool.or_assoc]

theorem isLoginForm_eq (E : Env) (n : Node) :
    isLoginForm E n = (n.preorder.any isPasswordInput && n.preorder.any (isUsernameInput E)) := by
  unfold isLoginForm
  rw [checkFormFields_eq_foldl, foldl_flags]
  simp

/-- C4: `isLoginForm` holds of a subtree exactly when it contains an input element of type
`password` and an input element of type `text` or `email` whose name, lowered, contains
`user`, `email` or `login`. A form with a password input and a text input named `username`
is a login form; a form with only a password input is not. -/
theorem C4_login_form (E : Env) (form : Node) :
    (isLoginForm E form = true ↔
      (∃ m ∈ form.preorder, isElement "input" m = true ∧ inputType m = "password") ∧
      (∃ m ∈ form.preorder, isElement "input" m = true ∧
        (inputType m = "text" ∨ inputType m = "email") ∧
        (Contains (ToLower E.unicodeToLower (inputName m)) "user" = true ∨
          Contains (ToLower E.unicodeToLower (inputName m)) "email" = true ∨
          Contains (ToLower E.unicodeToLower (inputName m)) "login" = true))) ∧
    isLoginForm E sampleLoginForm = true ∧
    isLoginForm E samplePasswordOnlyForm = false := by
  refine ⟨?_, rfl, rfl⟩
  rw [isLoginForm_eq, Bool.and_eq_true, List.any_eq_true, List.any_eq_true]
  constructor
  · rintro ⟨⟨m, hm, hp⟩, ⟨m2, hm2, hu⟩⟩
    refine ⟨⟨m, hm, ?_⟩, ⟨m2, hm2, ?_⟩⟩
    · simpa [isPasswordInput] using hp
    · simpa [isUsernameInput, namesUser, and_assoc, or_assoc] using hu
  · rintro ⟨⟨m, hm, hp⟩, ⟨m2, hm2, hu⟩⟩
    refine ⟨⟨m, hm, ?_⟩, ⟨m2, hm2, ?_⟩⟩
    · simpa [isPasswordInput] using hp
    · simpa [isUsernameInput, namesUser, and_assoc, or_assoc] using hu

/-! ## Title -/

theorem processLink_title (E : Env) (n : Node) (baseURL : String) (st : CrawlState) :
    (processLink E n baseURL st).result.Title = st.result.Title := by
  unfold processLink
  simp only []
  split
  · rfl
  · split
    · rfl
    · split
      · rfl
      · split <;> rfl

/-- The title after the visit of one node. -/
theorem extractDataNode_title (E : Env) (baseURL : String) (parent : Option Node)
    (n : Node) (st : CrawlState) :
    (extractDataNode E baseURL parent n st).result.Title =
      match titleText n with
      | some t => TrimSpace t
      | none => st.result.Title := by
  unfold extractDataNode titleText isElement
  have hne : ("title" : String) ≠ "html" := by decide
  by_cases ht : n.Type_ = NodeType.ElementNode
  · by_cases h1 : n.Data = "html"
    · have h2 : ¬ n.Data = "title" := by rw [h1]; exact fun h => hne h.symm
      simp [ht, h1, h2]
    · by_cases h2 : n.Data = "title"
      · cases hc : n.FirstChild <;> simp [ht, h2, hc, hne]
      · by_cases h3 : isHeading n.Data = true
        · simp [ht, h1, h2, h3]
        · by_cases h4 : n.Data = "a"
          · rw [if_pos ht, if_neg h1, if_neg h2, if_neg h3, if_pos h4, processLink_title]
            simp [h2]
          · by_cases h5 : n.Data = "form"
            · have hf : isHeading "form" = false := by decide
              by_cases h6 : isLoginForm E n = true <;> simp [ht, h5, h6, hf]
            · simp [ht, h1, h2, h3, h4, h5]
  · simp [ht]

theorem foldl_title (E : Env) (baseURL : String) :
    ∀ (l : List (Option Node × Node)) (st : CrawlState),
      (l.foldl (fun s x => extractDataNode E baseURL x.1 x.2 s) st).result.Title =
        match (l.filterMap (fun x => titleText x.2)).getLast? with
        | some t => TrimSpace t
        | none => st.result.Title := by
  intro l
  induction l with
  | nil => intro st; rfl
  | cons x xs ih =>
    intro st
    rw [List.foldl_cons, ih, List.filterMap_cons, extractDataNode_title]
    cases hx : titleText x.2 with
    | none => rfl
    | some t =>
      simp only [List.getLast?_cons]
      cases hr : (List.filterMap (fun x => titleText x.2) xs).getLast? <;> simp

/-- C5, refuted as stated: on a page whose head has `<title>Home</title>` and whose body
holds an SVG image with a `title` child, the first `title` element reads `Home` and
`extractData` yields the title `Logo`. -/
theorem C5_counterexample :
    specTitle pageWithSvgTitle = "Home" ∧
    (extractData sampleEnv "https://example.com/" none pageWithSvgTitle
      CrawlState.init).result.Title = "Logo" := by
  decide

/-- C5, amended: the title that `extractData` leaves is the trimmed data of the first child of
the last `title` element in document order that has a child; when no `title` element has a
child the title stays as it was, empty from the initial result. Title elements before that
one do not affect it. -/
theorem C5_title (E : Env) (baseURL : String) (parent : Option Node) (tree : Node)
    (st : CrawlState) :
    ((extractData E baseURL parent tree st).result.Title =
      match (titleTexts tree).getLast? with
      | some t => TrimSpace t
      | none => st.result.Title) ∧
    ((extractData E baseURL parent tree CrawlState.init).result.Title =
      match (titleTexts tree).getLast? with
      | some t => TrimSpace t
      | none => "") := by
  have h : ∀ s : CrawlState, (extractData E baseURL parent tree s).result.Title =
      match (titleTexts tree).getLast? with
      | some t => TrimSpace t
      | none => s.result.Title := by
    intro s
    rw [extractData_eq_foldl, foldl_title, titleTexts, ← map_snd_walk parent tree,
      List.filterMap_map]
    rfl
  exact ⟨h st, h CrawlState.init⟩

/-! ## Markup version -/

theorem xmlnsSaysXHTML_iff (attrs : List Attribute) :
    xmlnsSaysXHTML attrs = true ↔
      ∃ a ∈ attrs, a.Key = "xmlns" ∧ Contains a.Val "xhtml" = true := by
  induction attrs with
  | nil => simp [xmlnsSaysXHTML]
  | cons a as ih =>
    by_cases h : a.Key = "xmlns" ∧ Contains a.Val "xhtml" = true
    · simp [xmlnsSaysXHTML, h]
    · rw [xmlnsSaysXHTML, if_neg h, ih]
      simp [h]

theorem doctypeSaysHTML_iff (E : Env) (cs : List Node) :
    doctypeSaysHTML E cs = true ↔
      ∃ c ∈ cs, c.Type_ = NodeType.DoctypeNode ∧
        Contains (ToLower E.unicodeToLower c.Data) "html" = true := by
  induction cs with
  | nil => simp [doctypeSaysHTML]
  | cons c cs ih =>
    by_cases h : c.Type_ = NodeType.DoctypeNode ∧
        Contains (ToLower E.unicodeToLower c.Data) "html" = true
    · simp [doctypeSaysHTML, h]
    · rw [doctypeSaysHTML, if_neg h, ih]
      simp [h]

/-- C6, refuted as stated: the root element of an XHTML 1.0 Strict document declares the
XHTML namespace, and `extractHTMLVersion` returns `HTML5` for it, because the doctype of the
document is looked at first. -/
theorem C6_counterexample :
    xhtmlRoot ∈ xhtmlDocument.children ∧
    xhtmlDocument.Type_ = NodeType.DocumentNode ∧
    (∃ a ∈ xhtmlRoot.Attr, a.Key = "xmlns" ∧ Contains a.Val "xhtml" = true) ∧
    extractHTMLVersion sampleEnv (some xhtmlDocument) xhtmlRoot = "HTML5" := by
  refine ⟨by simp [xhtmlDocument, document, Node.children], by decide, ?_, by decide⟩
  exact ⟨attr "xmlns" "http://www.w3.org/1999/xhtml", by simp [xhtmlRoot, elem, Node.Attr],
    by decide, by decide⟩

/-- What `extractHTMLVersion` returns, for an element under any parent: `XHTML` exactly when the
element declares an XHTML namespace attribute and its parent is not a document node with a
doctype child containing `html` (case-insensitively), `HTML5` otherwise. -/
theorem extractHTMLVersion_spec (E : Env) (parent : Option Node) (n : Node) :
    (extractHTMLVersion E parent n = "XHTML" ↔
      (∃ a ∈ n.Attr, a.Key = "xmlns" ∧ Contains a.Val "xhtml" = true) ∧
      ¬ (∃ p, parent = some p ∧ p.Type_ = NodeType.DocumentNode ∧
          ∃ c ∈ p.children, c.Type_ = NodeType.DoctypeNode ∧
            Contains (ToLower E.unicodeToLower c.Data) "html" = true)) ∧
    ((∃ p, parent = some p ∧ p.Type_ = NodeType.DocumentNode ∧
          ∃ c ∈ p.children, c.Type_ = NodeType.DoctypeNode ∧
            Contains (ToLower E.unicodeToLower c.Data) "html" = true) →
      extractHTMLVersion E parent n = "HTML5") ∧
    (¬ (∃ a ∈ n.Attr, a.Key = "xmlns" ∧ Contains a.Val "xhtml" = true) →
      extractHTMLVersion E parent n = "HTML5") ∧
    (extractHTMLVersion E parent n = "XHTML" ∨ extractHTMLVersion E parent n = "HTML5") := by
  have hne : ("HTML5" : String) ≠ "XHTML" := by decide
  have hdoc : htmlDoctypeFound E parent = true ↔
      ∃ p, parent = some p ∧ p.Type_ = NodeType.DocumentNode ∧
          ∃ c ∈ p.children, c.Type_ = NodeType.DoctypeNode ∧
            Contains (ToLower E.unicodeToLower c.Data) "html" = true := by
    cases parent with
    | none => simp [htmlDoctypeFound]
    | some p => simp [htmlDoctypeFound, doctypeSaysHTML_iff]
  unfold extractHTMLVersion
  rw [← hdoc, ← xmlnsSaysXHTML_iff]
  by_cases hd : htmlDoctypeFound E parent = true
  · simp [hd, hne]
  · by_cases hx : xmlnsSaysXHTML n.Attr = true
    · simp [hd, hx]
    · simp [hd, hx, hne]

/-- C6, amended: for a root element, one whose parent is the document node, that declares an
XHTML namespace attribute, `extractHTMLVersion` returns `XHTML` when the document has no
doctype containing `html` (case-insensitively) and `HTML5` when it has one; for a root
element without such an attribute it returns `HTML5`; it returns no other value, and
`XHTML` exactly in the first case. -/
theorem C6_html_version (E : Env) (doc n : Node) (hdoc : doc.Type_ = NodeType.DocumentNode)
    (_hroot : n ∈ doc.children) :
    ((∃ a ∈ n.Attr, a.Key = "xmlns" ∧ Contains a.Val "xhtml" = true) →
      ¬ (∃ c ∈ doc.children, c.Type_ = NodeType.DoctypeNode ∧
          Contains (ToLower E.unicodeToLower c.Data) "html" = true) →
      extractHTMLVersion E (some doc) n = "XHTML") ∧
    ((∃ c ∈ doc.children, c.Type_ = NodeType.DoctypeNode ∧
          Contains (ToLower E.unicodeToLower c.Data) "html" = true) →
      extractHTMLVersion E (some doc) n = "HTML5") ∧
    (¬ (∃ a ∈ n.Attr, a.Key = "xmlns" ∧ Contains a.Val "xhtml" = true) →
      extractHTMLVersion E (some doc) n = "HTML5") ∧
    (extractHTMLVersion E (some doc) n = "XHTML" ∨
      extractHTMLVersion E (some doc) n = "HTML5") ∧
    (extractHTMLVersion E (some doc) n = "XHTML" ↔
      (∃ a ∈ n.Attr, a.Key = "xmlns" ∧ Contains a.Val "xhtml" = true) ∧
      ¬ (∃ c ∈ doc.children, c.Type_ = NodeType.DoctypeNode ∧
          Contains (ToLower E.unicodeToLower c.Data) "html" = true)) := by
  obtain ⟨hiff, hdt, hno, hor⟩ := extractHTMLVersion_spec E (some doc) n
  have hex : (∃ p, some doc = some p ∧ p.Type_ = NodeType.DocumentNode ∧
        ∃ c ∈ p.children, c.Type_ = NodeType.DoctypeNode ∧
          Contains (ToLower E.unicodeToLower c.Data) "html" = true) ↔
      ∃ c ∈ doc.children, c.Type_ = NodeType.DoctypeNode ∧
        Contains (ToLower E.unicodeToLower c.Data) "html" = true := by
    constructor
    · rintro ⟨p, hp, -, hc⟩
      cases hp
      exact hc
    · intro hc
      exact ⟨doc, rfl, hdoc, hc⟩
  rw [hex] at hiff hdt
  exact ⟨fun hx hd => hiff.mpr ⟨hx, hd⟩, hdt, hno, hor, hiff⟩

/-- C6, amended, on the root of an XHTML document: without a doctype it is classified `XHTML`,
under the XHTML 1.0 Strict doctype `HTML5`. -/
theorem C6_html_version_witness :
    xhtmlNoDoctype.Type_ = NodeType.DocumentNode ∧ xhtmlRoot ∈ xhtmlNoDoctype.children ∧
    xhtmlDocument.Type_ = NodeType.DocumentNode ∧ xhtmlRoot ∈ xhtmlDocument.children ∧
    extractHTMLVersion sampleEnv (some xhtmlNoDoctype) xhtmlRoot = "XHTML" ∧
    extractHTMLVersion sampleEnv (some xhtmlDocument) xhtmlRoot = "HTML5" := by
  have hm1 : xhtmlRoot ∈ xhtmlNoDoctype.children := by
    simp [xhtmlNoDoctype, document, Node.children]
  have hm2 : xhtmlRoot ∈ xhtmlDocument.children := by
    simp [xhtmlDocument, document, Node.children]
  have hattr : ∃ a ∈ xhtmlRoot.Attr, a.Key = "xmlns" ∧ Contains a.Val "xhtml" = true :=
    ⟨attr "xmlns" "http://www.w3.org/1999/xhtml", by simp [xhtmlRoot, elem, Node.Attr],
      by decide, by decide⟩
  refine ⟨rfl, hm1, rfl, hm2, ?_, ?_⟩
  · refine (C6_html_version sampleEnv xhtmlNoDoctype xhtmlRoot rfl hm1).1 hattr ?_
    rintro ⟨c, hc, ht, -⟩
    simp only [xhtmlNoDoctype, document, Node.children, List.mem_singleton] at hc
    subst hc
    exact absurd ht (by decide)
  · refine (C6_html_version sampleEnv xhtmlDocument xhtmlRoot rfl hm2).2.1 ?_
    refine ⟨.mk NodeType.DoctypeNode "html" ""
        [attr "public" "-//W3C//DTD XHTML 1.0 Strict//EN",
         attr "system" "http://www.w3.org/TR/xhtml1/DTD/xhtml1-strict.dtd"] [], ?_,
      rfl, by decide⟩
    simp [xhtmlDocument, document, Node.children]

/-! ## Link probe -/

/-- C7: `checkBrokenLink` appends exactly one entry with status code 0 and the error text when
the probe errors, exactly one entry with the status code and the status text when the probe
returns a status of 400 or more, and returns the result unchanged when the status is below
400. Entries already present stay in place and no other field changes. -/
theorem C7_check_broken_link (linkURL : String) (result : CrawlResult) :
    (∀ err, checkBrokenLink linkURL (.error err) result =
      { result with
        BrokenLinks := result.BrokenLinks ++ [{ URL := linkURL, StatusCode := 0, Error := err }] }) ∧
    (∀ s status, 400 ≤ s →
      checkBrokenLink linkURL (.ok (s, status)) result =
        { result with
          BrokenLinks :=
            result.BrokenLinks ++ [{ URL := linkURL, StatusCode := s, Error := status }] }) ∧
    (∀ s status, s < 400 → checkBrokenLink linkURL (.ok (s, status)) result = result) ∧
    (∀ probe, ((checkBrokenLink linkURL probe result).BrokenLinks.length =
          result.BrokenLinks.length + 1 ∨
        (checkBrokenLink linkURL probe result).BrokenLinks = result.BrokenLinks) ∧
      (checkBrokenLink linkURL probe result).BrokenLinks.take result.BrokenLinks.length =
        result.BrokenLinks) := by
  refine ⟨fun err => rfl, ?_, ?_, ?_⟩
  · intro s status h
    simp [checkBrokenLink, h]
  · intro s status h
    have h2 : ¬ s ≥ 400 := by omega
    simp [checkBrokenLink, h2]
  · intro probe
    rcases probe with err | ⟨s, status⟩
    · simp [checkBrokenLink]
    · by_cases h : s ≥ 400 <;> simp [checkBrokenLink, h]

/-- C7 at a probe that answers 404 and one that answers 200. -/
theorem C7_check_broken_link_witness :
    (checkBrokenLink "https://example.com/gone" (.ok (404, "404 Not Found"))
        CrawlResult.init).BrokenLinks =
      [{ URL := "https://example.com/gone", StatusCode := 404, Error := "404 Not Found" }] ∧
    (checkBrokenLink "https://example.com/gone" (.ok (200, "200 OK"))
        CrawlResult.init).BrokenLinks = [] := by
  have h := C7_check_broken_link "https://example.com/gone" CrawlResult.init
  refine ⟨?_, ?_⟩
  · rw [h.2.1 404 "404 Not Found" (by decide)]
    rfl
  · rw [h.2.2.1 200 "200 OK" (by decide)]
    rfl

/-! ## Top-level fetch -/

/-- C8, refuted as stated: a response with status 204, inside 200..299, whose body parses
makes `CrawlURL` return an error. -/
theorem C8_counterexample :
    (200 ≤ noContentResponse.StatusCode ∧ noContentResponse.StatusCode ≤ 299) ∧
    noContentResponse.Body.toOption.isSome = true ∧
    errorText (CrawlURL sampleEnv "https://example.com/" (.ok noContentResponse) 0) =
      some "HTTP 204: 204 No Content" := by
  decide

/-- C8, amended: for a fetch outcome whose body parses, `CrawlURL` returns an error exactly when
the fetch itself errors or the response status is not 200. The error of a failed fetch is
`failed to fetch URL: ` followed by the cause; the error of a response with any status other
than 200, the other 2xx statuses included, is `HTTP <code>: <status>`; a response with status
200 yields no error but the result of `extractData` on the parsed body from the initial
result, with the measured duration. -/
theorem C8_crawl_error (E : Env) (targetURL : String) (fetch : FetchOutcome) (elapsed : Int)
    (hparse : ∀ resp, fetch = .ok resp → ∃ doc, resp.Body = .ok doc) :
    ((∃ e, CrawlURL E targetURL fetch elapsed = .error e) ↔
      ((∃ err, fetch = .error err) ∨ ∃ resp, fetch = .ok resp ∧ resp.StatusCode ≠ 200)) ∧
    (∀ err, fetch = .error err →
      CrawlURL E targetURL fetch elapsed = .error ("failed to fetch URL: " ++ err)) ∧
    (∀ resp, fetch = .ok resp → resp.StatusCode ≠ 200 →
      CrawlURL E targetURL fetch elapsed =
        .error ("HTTP " ++ toString resp.StatusCode ++ ": " ++ resp.Status)) ∧
    (∀ resp doc, fetch = .ok resp → resp.StatusCode = 200 → resp.Body = .ok doc →
      CrawlURL E targetURL fetch elapsed =
        .ok { result :=
                { (extractData E targetURL none doc CrawlState.init).result with
                  Duration := elapsed },
              probes := (extractData E targetURL none doc CrawlState.init).probes }) ∧
    (∀ resp, fetch = .ok resp → resp.StatusCode = 200 →
      ∃ st, CrawlURL E targetURL fetch elapsed = .ok st) := by
  cases fetch with
  | error err =>
    refine ⟨by simp [CrawlURL], ?_, ?_, ?_, ?_⟩
    · intro e he
      cases he
      rfl
    · intro resp h; cases h
    · intro resp doc h; cases h
    · intro resp h; cases h
  | ok resp =>
    obtain ⟨doc, hdoc⟩ := hparse resp rfl
    by_cases hs : resp.StatusCode = 200
    · refine ⟨by simp [CrawlURL, hs, hdoc], ?_, ?_, ?_, ?_⟩
      · intro e he; cases he
      · intro r hr hne
        cases hr
        exact absurd hs hne
      · intro r d hr _ hd
        cases hr
        rw [hdoc] at hd
        cases hd
        simp [CrawlURL, hs, hdoc]
      · intro r hr _
        cases hr
        simp [CrawlURL, hs, hdoc]
    · refine ⟨by simp [CrawlURL, hs], ?_, ?_, ?_, ?_⟩
      · intro e he; cases he
      · intro r hr _
        cases hr
        simp [CrawlURL, hs]
      · intro r d hr h200
        cases hr
        exact absurd h200 hs
      · intro r hr h200
        cases hr
        exact absurd h200 hs

/-- C8, amended, at three fetch outcomes: the response of the scenario (status 200) yields a
result, a response with status 204 the error `HTTP 204: 204 No Content`, and a fetch that
times out the error `failed to fetch URL: context deadline exceeded`. -/
theorem C8_crawl_error_witness :
    (∀ resp, (Except.ok sampleResponse : FetchOutcome) = .ok resp → ∃ doc, resp.Body = .ok doc) ∧
    (∃ st, CrawlURL sampleEnv "https://example.com/" (.ok sampleResponse) 0 = .ok st) ∧
    errorText (CrawlURL sampleEnv "https://example.com/" (.ok noContentResponse) 0) =
      some ("HTTP " ++ toString (204 : Int) ++ ": " ++ "204 No Content") ∧
    errorText (CrawlURL sampleEnv "https://example.com/" (.error "context deadline exceeded") 0) =
      some ("failed to fetch URL: " ++ "context deadline exceeded") := by
  have hp : ∀ resp, (Except.ok sampleResponse : FetchOutcome) = .ok resp →
      ∃ doc, resp.Body = .ok doc := by
    intro resp h
    cases h
    exact ⟨samplePage, rfl⟩
  have hp2 : ∀ resp, (Except.ok noContentResponse : FetchOutcome) = .ok resp →
      ∃ doc, resp.Body = .ok doc := by
    intro resp h
    cases h
    exact ⟨emptyPage, rfl⟩
  have hp3 : ∀ resp, (Except.error "context deadline exceeded" : FetchOutcome) = .ok resp →
      ∃ doc, resp.Body = .ok doc := by
    intro resp h
    cases h
  refine ⟨hp, ?_, ?_, ?_⟩
  · exact (C8_crawl_error sampleEnv "https://example.com/" (.ok sampleResponse) 0 hp).2.2.2.2
      sampleResponse rfl rfl
  · rw [(C8_crawl_error sampleEnv "https://example.com/" (.ok noContentResponse) 0 hp2).2.2.1
      noContentResponse rfl (by decide)]
    rfl
  · rw [(C8_crawl_error sampleEnv "https://example.com/" (.error "context deadline exceeded") 0
      hp3).2.1 "context deadline exceeded" rfl]
    rfl

/-! ## Lifecycle events -/

theorem CrawlURL_error_ne_empty (E : Env) (targetURL : String) (fetch : FetchOutcome)
    (elapsed : Int) (e : String) (h : CrawlURL E targetURL fetch elapsed = .error e) :
    e ≠ "" := by
  have hne : ∀ (a b : String), a.data ≠ [] → a ++ b ≠ "" := by
    intro a b ha hab
    have := congrArg String.data hab
    rw [String.data_append] at this
    cases hd : a.data with
    | nil => exact ha hd
    | cons c cs => rw [hd] at this; cases this
  unfold CrawlURL at h
  cases fetch with
  | error err =>
    simp only [Except.error.injEq] at h
    rw [← h]
    exact hne _ _ (by decide)
  | ok resp =>
    by_cases hs : resp.StatusCode = 200
    · cases hb : resp.Body with
      | error err =>
        simp only [hs, hb, ne_eq, not_true_eq_false, if_false, Except.error.injEq] at h
        rw [← h]
        exact hne _ _ (by decide)
      | ok doc => simp [hs, hb] at h
    · simp only [ne_eq, hs, not_false_eq_true, if_true, Except.error.injEq] at h
      rw [← h, String.append_assoc, String.append_assoc]
      exact hne _ _ (by decide)

/-- C9: a run of `performCrawl` whose row lookup succeeds publishes exactly two lifecycle
events, both addressed to the owner of the job: `crawl_started`, then `crawl_error` carrying
the error text when `CrawlURL` fails, `crawl_completed` carrying the result when it succeeds.
A run whose lookup fails publishes nothing. -/
theorem C9_lifecycle_events (E : Env) (db : DB) (urlID : String) (tStart : Nat)
    (inp : CrawlInputs) (row : URLData) (hrow : db.queryRow urlID = some row) :
    (∃ started final, (performCrawl E db none urlID tStart inp).1 = [started, final] ∧
      started.kind = (row.UserID, "crawl_started") ∧ started.message.URL = row.URL ∧
      started.message.Data = none ∧ started.message.Error = "" ∧
      final.userID = row.UserID ∧ final.message.URL = row.URL ∧
      ((∃ err, CrawlURL E row.URL inp.fetch inp.elapsed = .error err ∧
          final.message.Type_ = "crawl_error" ∧ final.message.Error = err ∧
          final.message.Data = none) ∨
       (∃ st, CrawlURL E row.URL inp.fetch inp.elapsed = .ok st ∧
          final.message.Type_ = "crawl_completed" ∧ final.message.Error = "" ∧
          final.message.Data = some (probesApplied inp.done1 st.result)))) ∧
    (∀ db2 err, (performCrawl E db2 (some err) urlID tStart inp).1 = []) ∧
    (∀ db2 : DB, db2.queryRow urlID = none →
      (performCrawl E db2 none urlID tStart inp).1 = []) := by
  refine ⟨?_, ?_, ?_⟩
  · unfold performCrawl performCrawlBegin
    simp only [hrow]
    cases hc : CrawlURL E row.URL inp.fetch inp.elapsed with
    | error err =>
      refine ⟨_, _, rfl, rfl, rfl, rfl, rfl, rfl, rfl, Or.inl ⟨err, rfl, rfl, rfl, rfl⟩⟩
    | ok st =>
      refine ⟨_, _, rfl, rfl, rfl, rfl, rfl, rfl, rfl, Or.inr ⟨st, rfl, rfl, rfl, rfl⟩⟩
  · intro db2 err
    rfl
  · intro db2 h
    simp [performCrawl, performCrawlBegin, h]

/-- C9 on the sample job: the crawl of the scenario page publishes `crawl_started` and
`crawl_completed` to `alice`, a timed-out fetch `crawl_started` and `crawl_error`. -/
theorem C9_lifecycle_events_witness :
    sampleDB.queryRow "job-1" = some (insertedRow "job-1" "alice" "https://example.com/" 0) ∧
    (performCrawl sampleEnv sampleDB none "job-1" 2 sampleInputs).1.length = 2 ∧
    (performCrawl sampleEnv sampleDB none "job-1" 2 sampleInputs).1.map Publish.kind =
      [("alice", "crawl_started"), ("alice", "crawl_completed")] ∧
    (performCrawl sampleEnv sampleDB none "job-1" 2 sampleTimeout).1.map Publish.kind =
      [("alice", "crawl_started"), ("alice", "crawl_error")] := by
  obtain ⟨started, final, h, -⟩ :=
    (C9_lifecycle_events sampleEnv sampleDB "job-1" 2 sampleInputs
      (insertedRow "job-1" "alice" "https://example.com/" 0) rfl).1
  refine ⟨rfl, ?_, by decide, by decide⟩
  rw [h]
  rfl

/-! ## The stored record -/

/-- C10, refuted as stated: after create, start, successful completion and stop, the row is
`queued` with all result columns set; after create, start, successful completion, a second
start and a failed crawl, the row is `error` with all result columns and the failure reason
set. Neither row satisfies the invariant as stated. -/
theorem C10_counterexample :
    (run sampleEnv stopAfterCompletion).db.map (fun r => (r.Status, hasResult r, hasReason r)) =
      [("queued", true, false)] ∧
    (run sampleEnv failAfterCompletion).db.map (fun r => (r.Status, hasResult r, hasReason r)) =
      [("error", true, true)] ∧
    (∃ r ∈ (run sampleEnv stopAfterCompletion).db, ¬ specInvariant r) ∧
    (∃ r ∈ (run sampleEnv failAfterCompletion).db, ¬ specInvariant r) := by
  have h1 : (run sampleEnv stopAfterCompletion).db.map
      (fun r => (r.Status, hasResult r, hasReason r)) = [("queued", true, false)] := by decide
  have h2 : (run sampleEnv failAfterCompletion).db.map
      (fun r => (r.Status, hasResult r, hasReason r)) = [("error", true, true)] := by decide
  refine ⟨h1, h2, ?_, ?_⟩
  · cases hdb : (run sampleEnv stopAfterCompletion).db with
    | nil => rw [hdb] at h1; cases h1
    | cons r rs =>
      rw [hdb] at h1
      simp only [List.map_cons, List.cons.injEq, Prod.mk.injEq] at h1
      obtain ⟨⟨hs, hr, -⟩, -⟩ := h1
      refine ⟨r, List.mem_cons_self _ _, fun hinv => ?_⟩
      have := hinv.1.mp hr
      rw [hs] at this
      exact absurd this (by decide)
  · cases hdb : (run sampleEnv failAfterCompletion).db with
    | nil => rw [hdb] at h2; cases h2
    | cons r rs =>
      rw [hdb] at h2
      simp only [List.map_cons, List.cons.injEq, Prod.mk.injEq] at h2
      obtain ⟨⟨-, hr, he⟩, -⟩ := h2
      exact ⟨r, List.mem_cons_self _ _, fun hinv => hinv.2.2.1 ⟨hr, he⟩⟩

theorem rowInvariant_map (db : DB) (sel : URLData → Bool) (set : URLData → URLData)
    (hset : ∀ r, rowInvariant (set r)) (hdb : ∀ r ∈ db, rowInvariant r) :
    ∀ r ∈ db.map (fun r => if sel r then set r else r), rowInvariant r := by
  intro r hr
  rw [List.mem_map] at hr
  obtain ⟨r0, hr0, rfl⟩ := hr
  by_cases hs : sel r0 = true
  · rw [if_pos hs]; exact hset r0
  · rw [if_neg hs]; exact hdb r0 hr0

theorem rowInvariant_execUpdate (db db2 : DB) (dbErr : Option String) (sel : URLData → Bool)
    (set : URLData → URLData) (hset : ∀ r, rowInvariant (set r))
    (hdb : ∀ r ∈ db, rowInvariant r) (h : db.execUpdate dbErr sel set = .ok db2) :
    ∀ r ∈ db2, rowInvariant r := by
  unfold DB.execUpdate at h
  cases dbErr with
  | some e => cases h
  | none =>
    simp only [Except.ok.injEq] at h
    rw [← h]
    exact rowInvariant_map db sel set hset hdb

theorem rowInvariant_performCrawlEnd (E : Env) (db : DB) (dbErr : Option String)
    (urlID url userID : String) (inp : CrawlInputs) (hdb : ∀ r ∈ db, rowInvariant r) :
    ∀ r ∈ (performCrawlEnd db dbErr urlID url userID (CrawlURL E url inp.fetch inp.elapsed)
      inp.done1 inp.done2 inp.tMsg inp.tUpd).2, rowInvariant r := by
  unfold performCrawlEnd
  cases hc : CrawlURL E url inp.fetch inp.elapsed with
  | error err =>
    have hne : err ≠ "" := CrawlURL_error_ne_empty E url inp.fetch inp.elapsed err hc
    simp only []
    cases hu : UpdateURLStatus db dbErr urlID "error" none err inp.tUpd with
    | error e => exact hdb
    | ok db2 =>
      refine rowInvariant_execUpdate db db2 dbErr _ _ ?_ hdb hu
      intro r
      simp [rowInvariant, updateURLStatusSet, hne, hasReason]
  | ok st =>
    simp only []
    cases hu : UpdateURLStatus db dbErr urlID "completed"
        (some (probesApplied inp.done2 (probesApplied inp.done1 st.result))) "" inp.tUpd with
    | error e => exact hdb
    | ok db2 =>
      refine rowInvariant_execUpdate db db2 dbErr _ _ ?_ hdb hu
      intro r
      simp [rowInvariant, updateURLStatusSet, hasResult]

theorem rowInvariant_step (E : Env) (s : Orchestrator) (op : Op)
    (hs : ∀ r ∈ s.db, rowInvariant r) : ∀ r ∈ (step E s op).db, rowInvariant r := by
  cases op with
  | CreateURL dbErr userID url id now =>
    simp only [step]
    cases hc : CreateURL s.db dbErr userID url id now with
    | error e => exact hs
    | ok db2 =>
      unfold CreateURL at hc
      cases dbErr with
      | some e => cases hc
      | none =>
        by_cases hq : (s.db.queryRow id).isSome = true
        · simp [hq] at hc
        · rw [if_neg hq] at hc
          injection hc with hc
          intro r hr
          rw [← hc, List.mem_append, List.mem_singleton] at hr
          rcases hr with hr | hr
          · exact hs r hr
          · rw [hr]
            simp [rowInvariant, insertedRow]
  | StartCrawling dbErr userID urlID now =>
    simp only [step, StartCrawling]
    cases hu : s.db.execUpdate dbErr (fun r => r.ID = urlID ∧ r.UserID = userID)
        (fun r => { r with Status := "running", UpdatedAt := now }) with
    | error e => exact hs
    | ok db2 =>
      exact rowInvariant_execUpdate s.db db2 dbErr _ _ (by intro r; simp [rowInvariant]) hs hu
  | StopCrawling dbErr userID urlID now =>
    simp only [step, StopCrawling]
    cases hu : s.db.execUpdate dbErr (fun r => r.ID = urlID ∧ r.UserID = userID)
        (fun r => { r with Status := "queued", UpdatedAt := now }) with
    | error e => exact hs
    | ok db2 =>
      exact rowInvariant_execUpdate s.db db2 dbErr _ _ (by intro r; simp [rowInvariant]) hs hu
  | RerunAnalysis dbErr userID urlID now =>
    simp only [step, RerunAnalysis]
    cases hu : s.db.execUpdate dbErr (fun r => r.ID = urlID ∧ r.UserID = userID)
        (fun r =>
          { r with
            Status := "queued", Title := none, HTMLVersion := none, HeadingTags := none,
            InternalLinks := none, ExternalLinks := none, BrokenLinks := none,
            HasLoginForm := none, ErrorMessage := none, AnalysisDuration := none,
            UpdatedAt := now }) with
    | error e => exact hs
    | ok db2 =>
      exact rowInvariant_execUpdate s.db db2 dbErr _ _ (by intro r; simp [rowInvariant]) hs hu
  | taskBegin i dbErr now =>
    simp only [step]
    cases hg : s.spawned.get? i with
    | none => exact hs
    | some urlID =>
      simp only []
      cases hb : performCrawlBegin s.db dbErr urlID now with
      | none => exact hs
      | some x => exact hs
  | taskEnd i inp =>
    simp only [step]
    cases hg : s.crawling.get? i with
    | none => exact hs
    | some t =>
      obtain ⟨urlID, url, userID⟩ := t
      exact rowInvariant_performCrawlEnd E s.db inp.updErr urlID url userID inp hs

theorem rowInvariant_foldl (E : Env) (ops : List Op) :
    ∀ s : Orchestrator, (∀ r ∈ s.db, rowInvariant r) →
      ∀ r ∈ (ops.foldl (step E) s).db, rowInvariant r := by
  induction ops with
  | nil => intro s hs; exact hs
  | cons op ops ih =>
    intro s hs
    rw [List.foldl_cons]
    exact ih (step E s op) (rowInvariant_step E s op hs)

theorem rerun_eq (s : Orchestrator) (userID urlID : String) (now : Nat) :
    RerunAnalysis s none userID urlID now =
      .ok { db := s.db.map (fun r =>
              if r.ID = urlID ∧ r.UserID = userID then clearedRow now r else r),
            spawned := s.spawned ++ [urlID], crawling := s.crawling,
            published := s.published } := by
  simp only [RerunAnalysis, DB.execUpdate]
  congr 2
  apply List.map_congr_left
  intro r _
  by_cases hsel : r.ID = urlID ∧ r.UserID = userID
  · have hd : decide (r.ID = urlID ∧ r.UserID = userID) = true := decide_eq_true hsel
    rw [if_pos hd, if_pos hsel]
    rfl
  · have hd : ¬ decide (r.ID = urlID ∧ r.UserID = userID) = true := by simpa using hsel
    rw [if_neg hd, if_neg hsel]

theorem start_eq (s : Orchestrator) (userID urlID : String) (now : Nat) :
    StartCrawling s none userID urlID now =
      .ok { db := s.db.map (fun r =>
              if r.ID = urlID ∧ r.UserID = userID then withStatus "running" now r else r),
            spawned := s.spawned ++ [urlID], crawling := s.crawling,
            published := s.published } := by
  simp only [StartCrawling, DB.execUpdate]
  congr 2
  apply List.map_congr_left
  intro r _
  by_cases hsel : r.ID = urlID ∧ r.UserID = userID
  · have hd : decide (r.ID = urlID ∧ r.UserID = userID) = true := decide_eq_true hsel
    rw [if_pos hd, if_pos hsel]
    rfl
  · have hd : ¬ decide (r.ID = urlID ∧ r.UserID = userID) = true := by simpa using hsel
    rw [if_neg hd, if_neg hsel]

theorem stop_eq (s : Orchestrator) (userID urlID : String) (now : Nat) :
    StopCrawling s none userID urlID now =
      .ok { db := s.db.map (fun r =>
              if r.ID = urlID ∧ r.UserID = userID then withStatus "queued" now r else r),
            spawned := s.spawned, crawling := s.crawling, published := s.published } := by
  simp only [StopCrawling, DB.execUpdate]
  congr 2
  apply List.map_congr_left
  intro r _
  by_cases hsel : r.ID = urlID ∧ r.UserID = userID
  · have hd : decide (r.ID = urlID ∧ r.UserID = userID) = true := decide_eq_true hsel
    rw [if_pos hd, if_pos hsel]
    rfl
  · have hd : ¬ decide (r.ID = urlID ∧ r.UserID = userID) = true := by simpa using hsel
    rw [if_neg hd, if_neg hsel]

/-- The table after the last part of a task whose crawl failed. -/
theorem performCrawlEnd_error_db (db : DB) (urlID url userID err : String)
    (done1 done2 : List (String × ProbeOutcome)) (tMsg tUpd : Nat) (hne : err ≠ "") :
    (performCrawlEnd db none urlID url userID (.error err) done1 done2 tMsg tUpd).2 =
      db.map (fun r => if r.ID = urlID then failedRow err tUpd r else r) := by
  simp only [performCrawlEnd, UpdateURLStatus, DB.execUpdate]
  apply List.map_congr_left
  intro r _
  by_cases hid : r.ID = urlID
  · have hd : decide (r.ID = urlID) = true := decide_eq_true hid
    rw [if_pos hd, if_pos hid]
    simp [updateURLStatusSet, hne, failedRow]
  · have hd : ¬ decide (r.ID = urlID) = true := by simpa using hid
    rw [if_neg hd, if_neg hid]

/-- The table after the last part of a task whose crawl succeeded. -/
theorem performCrawlEnd_ok_db (db : DB) (urlID url userID : String) (st : CrawlState)
    (done1 done2 : List (String × ProbeOutcome)) (tMsg tUpd : Nat) :
    (performCrawlEnd db none urlID url userID (.ok st) done1 done2 tMsg tUpd).2 =
      db.map (fun r =>
        if r.ID = urlID then
          succeededRow (probesApplied done2 (probesApplied done1 st.result)) tUpd r
        else r) := by
  simp only [performCrawlEnd, UpdateURLStatus, DB.execUpdate]
  apply List.map_congr_left
  intro r _
  by_cases hid : r.ID = urlID
  · have hd : decide (r.ID = urlID) = true := decide_eq_true hid
    rw [if_pos hd, if_pos hid]
    simp [updateURLStatusSet, succeededRow]
  · have hd : ¬ decide (r.ID = urlID) = true := by simpa using hid
    rw [if_neg hd, if_neg hid]

/-- C10, amended: after every sequence of orchestrator operations each stored row with status
`completed` has all result columns set and each row with status `error` has its failure
reason set. The operations act on the table as follows. `CreateURL` with a new id appends a
`queued` row without failure reason and with no result column set beyond the schema defaults
(link counts 0, login flag false). `RerunAnalysis` replaces the row of the job owned by the
caller by the same row `queued` with every result column and the failure reason empty.
`StartCrawling` and `StopCrawling` change only the status (to `running`, to `queued`) and
the update time of that row. A task that completes with success writes status `completed`,
the update time and all result columns of the row of the job and leaves its failure reason
as it was; a task that completes with failure writes status `error`, the update time and
the failure reason and leaves the result columns as they were. -/
theorem C10_record_invariant (E : Env) (ops : List Op) :
    (∀ r ∈ (run E ops).db,
      (r.Status = "completed" → hasResult r = true) ∧
      (r.Status = "error" → hasReason r = true)) ∧
    (∀ (db : DB) userID url id now, db.queryRow id = none →
      CreateURL db none userID url id now = .ok (db ++ [insertedRow id userID url now])) ∧
    (∀ id userID url now,
      (insertedRow id userID url now).Status = "queued" ∧
      hasReason (insertedRow id userID url now) = false ∧
      hasResult (insertedRow id userID url now) = false ∧
      (insertedRow id userID url now).Title = none ∧
      (insertedRow id userID url now).HTMLVersion = none ∧
      (insertedRow id userID url now).HeadingTags.isNone = true ∧
      (insertedRow id userID url now).BrokenLinks = none ∧
      (insertedRow id userID url now).AnalysisDuration = none ∧
      (insertedRow id userID url now).InternalLinks = some 0 ∧
      (insertedRow id userID url now).ExternalLinks = some 0 ∧
      (insertedRow id userID url now).HasLoginForm = some false) ∧
    (∀ (s : Orchestrator) userID urlID now,
      RerunAnalysis s none userID urlID now =
        .ok { db := s.db.map (fun r =>
                if r.ID = urlID ∧ r.UserID = userID then clearedRow now r else r),
              spawned := s.spawned ++ [urlID], crawling := s.crawling,
              published := s.published }) ∧
    (∀ now r, (clearedRow now r).Status = "queued" ∧ resultEmpty (clearedRow now r) = true ∧
      hasReason (clearedRow now r) = false) ∧
    (∀ (s : Orchestrator) userID urlID now,
      StartCrawling s none userID urlID now =
        .ok { db := s.db.map (fun r =>
                if r.ID = urlID ∧ r.UserID = userID then withStatus "running" now r else r),
              spawned := s.spawned ++ [urlID], crawling := s.crawling,
              published := s.published }) ∧
    (∀ (s : Orchestrator) userID urlID now,
      StopCrawling s none userID urlID now =
        .ok { db := s.db.map (fun r =>
                if r.ID = urlID ∧ r.UserID = userID then withStatus "queued" now r else r),
              spawned := s.spawned, crawling := s.crawling, published := s.published }) ∧
    (∀ (db : DB) urlID url userID fetch elapsed done1 done2 tMsg tUpd st,
      CrawlURL E url fetch elapsed = .ok st →
      (performCrawlEnd db none urlID url userID (CrawlURL E url fetch elapsed) done1 done2
          tMsg tUpd).2 =
        db.map (fun r =>
          if r.ID = urlID then
            succeededRow (probesApplied done2 (probesApplied done1 st.result)) tUpd r
          else r)) ∧
    (∀ (db : DB) urlID url userID fetch elapsed done1 done2 tMsg tUpd err,
      CrawlURL E url fetch elapsed = .error err →
      (performCrawlEnd db none urlID url userID (CrawlURL E url fetch elapsed) done1 done2
          tMsg tUpd).2 =
        db.map (fun r => if r.ID = urlID then failedRow err tUpd r else r)) := by
  refine ⟨?_, ?_, ?_, ?_, ?_, ?_, ?_, ?_, ?_⟩
  · exact rowInvariant_foldl E ops Orchestrator.init (by intro r hr; cases hr)
  · intro db userID url id now hq
    simp [CreateURL, hq]
  · intro id userID url now
    exact ⟨rfl, rfl, rfl, rfl, rfl, rfl, rfl, rfl, rfl, rfl, rfl⟩
  · intro s userID urlID now
    exact rerun_eq s userID urlID now
  · intro now r
    exact ⟨rfl, rfl, rfl⟩
  · intro s userID urlID now
    exact start_eq s userID urlID now
  · intro s userID urlID now
    exact stop_eq s userID urlID now
  · intro db urlID url userID fetch elapsed done1 done2 tMsg tUpd st hc
    rw [hc]
    exact performCrawlEnd_ok_db db urlID url userID st done1 done2 tMsg tUpd
  · intro db urlID url userID fetch elapsed done1 done2 tMsg tUpd err hc
    rw [hc]
    exact performCrawlEnd_error_db db urlID url userID err done1 done2 tMsg tUpd
      (CrawlURL_error_ne_empty E url fetch elapsed err hc)

/-! ## The hub -/

theorem runBroadcastLoop_eq (messageBytes : String) : ∀ (l : List Nat) (h : Hub),
    runBroadcastLoop messageBytes l h = publishLoop (fun _ => true) messageBytes l h := by
  intro l
  induction l with
  | nil => intro h; rfl
  | cons p ps ih =>
    intro h
    simp only [runBroadcastLoop, publishLoop, if_true]
    cases trySend h p messageBytes with
    | none => rfl
    | some h2 => exact ih h2

theorem broadcastToUserLoop_eq (userID messageBytes : String) : ∀ (l : List Nat) (h : Hub),
    broadcastToUserLoop userID messageBytes l h =
      publishLoop (fun c => c.UserID = userID) messageBytes l h := by
  intro l
  induction l with
  | nil => intro h; rfl
  | cons p ps ih =>
    intro h
    by_cases hu : (h.heap p).UserID = userID
    · simp only [broadcastToUserLoop, publishLoop, hu, if_true, decide_True]
      cases trySend h p messageBytes with
      | none => rfl
      | some h2 => exact ih h2
    · simp only [broadcastToUserLoop, publishLoop, hu, if_false, decide_False]
      exact ih h

/-- One non-blocking send to a client with an open queue. -/
theorem trySend_open (h : Hub) (p : Nat) (messageBytes : String)
    (hopen : (h.heap p).Send.closed = false) :
    trySend h p messageBytes =
      some { heap := Function.update h.heap p ((h.heap p).offered messageBytes),
             next := h.next,
             Clients := if hasRoom (h.heap p) then h.Clients
               else h.Clients.filter (fun q => q ≠ p) } := by
  unfold trySend Client.offered hasRoom Chan.close Hub.delete
  by_cases hr : (h.heap p).Send.buf.length < (h.heap p).Send.cap
  · simp [hopen, hr]
  · simp [hopen, hr]

/-- The publish loop in closed form: on distinct keys with open queues it does not panic, it
offers the message to exactly the selected clients among the keys, and it drops from the
map exactly those of them whose queue had no room. -/
theorem publishLoop_spec (sel : Client → Bool) (messageBytes : String) :
    ∀ (l : List Nat) (h : Hub), l.Nodup → (∀ p ∈ l, (h.heap p).Send.closed = false) →
      ∃ h2, publishLoop sel messageBytes l h = some h2 ∧ h2.next = h.next ∧
        (∀ p, h2.heap p =
          if p ∈ l ∧ sel (h.heap p) = true then (h.heap p).offered messageBytes
          else h.heap p) ∧
        h2.Clients = h.Clients.filter
          (fun q => !(decide (q ∈ l) && sel (h.heap q) && !hasRoom (h.heap q))) := by
  intro l
  induction l with
  | nil =>
    intro h _ _
    refine ⟨h, rfl, rfl, ?_, ?_⟩
    · intro p; simp
    · simp
  | cons p ps ih =>
    intro h hnd hopen
    rw [List.nodup_cons] at hnd
    obtain ⟨hp, hnd⟩ := hnd
    have hopen_ps : ∀ q ∈ ps, (h.heap q).Send.closed = false :=
      fun q hq => hopen q (List.mem_cons_of_mem _ hq)
    by_cases hs : sel (h.heap p) = true
    · rw [publishLoop, if_pos hs, trySend_open h p messageBytes (hopen p (List.mem_cons_self _ _))]
      simp only []
      have hne : ∀ q ∈ ps, q ≠ p := fun q hq hqp => hp (hqp ▸ hq)
      obtain ⟨h2, hloop, hnext, hheap, hcl⟩ := ih
        { heap := Function.update h.heap p ((h.heap p).offered messageBytes),
          next := h.next,
          Clients := if hasRoom (h.heap p) then h.Clients
            else h.Clients.filter (fun q => q ≠ p) } hnd
        (by
          intro q hq
          simp only [Function.update_noteq (hne q hq)]
          exact hopen_ps q hq)
      refine ⟨h2, hloop, hnext, ?_, ?_⟩
      · intro q
        rw [hheap q]
        by_cases hqp : q = p
        · subst hqp
          simp [hp, hs]
        · simp [Function.update_noteq hqp, hqp]
      · rw [hcl]
        simp only []
        by_cases hr : hasRoom (h.heap p) = true
        · rw [if_pos hr]
          apply List.filter_congr
          intro q _
          by_cases hqp : q = p
          · subst hqp
            simp [hp, hr]
          · simp [Function.update_noteq hqp, hqp]
        · rw [if_neg hr, List.filter_filter]
          apply List.filter_congr
          intro q _
          by_cases hqp : q = p
          · subst hqp
            simp [hs, hr]
          · simp [Function.update_noteq hqp, hqp]
    · rw [publishLoop, if_neg hs]
      obtain ⟨h2, hloop, hnext, hheap, hcl⟩ := ih h hnd hopen_ps
      refine ⟨h2, hloop, hnext, ?_, ?_⟩
      · intro q
        rw [hheap q]
        by_cases hqp : q = p
        · subst hqp
          simp [hp, hs]
        · simp [hqp]
      · rw [hcl]
        apply List.filter_congr
        intro q _
        by_cases hqp : q = p
        · subst hqp
          simp [hp, hs]
        · simp [hqp]

/-- A publish on a well-formed hub, in closed form. -/
theorem publish_spec (sel : Client → Bool) (messageBytes : String) (h : Hub)
    (hwf : h.wellFormed) :
    ∃ h2, publishLoop sel messageBytes h.Clients h = some h2 ∧ h2.next = h.next ∧
      (∀ p, h2.heap p =
        if p ∈ h.Clients ∧ sel (h.heap p) = true then (h.heap p).offered messageBytes
        else h.heap p) ∧
      h2.Clients = h.Clients.filter (fun q => !(sel (h.heap q) && !hasRoom (h.heap q))) := by
  obtain ⟨h2, hloop, hnext, hheap, hcl⟩ :=
    publishLoop_spec sel messageBytes h.Clients h hwf.1 (fun p hp => (hwf.2 p hp).2)
  refine ⟨h2, hloop, hnext, hheap, ?_⟩
  rw [hcl]
  apply List.filter_congr
  intro q hq
  simp [hq]

theorem publish_wellFormed (sel : Client → Bool) (messageBytes : String) (h h2 : Hub)
    (hwf : h.wellFormed) (hnext : h2.next = h.next)
    (hheap : ∀ p, h2.heap p =
        if p ∈ h.Clients ∧ sel (h.heap p) = true then (h.heap p).offered messageBytes
        else h.heap p)
    (hcl : h2.Clients =
      h.Clients.filter (fun q => !(sel (h.heap q) && !hasRoom (h.heap q)))) :
    h2.wellFormed := by
  refine ⟨hcl ▸ hwf.1.filter _, ?_⟩
  intro p hp
  rw [hcl, List.mem_filter] at hp
  obtain ⟨hp, hkeep⟩ := hp
  obtain ⟨hlt, hopen⟩ := hwf.2 p hp
  refine ⟨hnext ▸ hlt, ?_⟩
  rw [hheap p]
  by_cases hs : sel (h.heap p) = true
  · have hr : hasRoom (h.heap p) = true := by simpa [hs] using hkeep
    simp [hp, hs, Client.offered, hr, hopen]
  · simp [hs, hopen]

theorem publish_withinCapacity (sel : Client → Bool) (messageBytes : String) (h h2 : Hub)
    (hcap : h.withinCapacity)
    (hheap : ∀ p, h2.heap p =
        if p ∈ h.Clients ∧ sel (h.heap p) = true then (h.heap p).offered messageBytes
        else h.heap p) :
    h2.withinCapacity := by
  intro p
  rw [hheap p]
  by_cases hc : p ∈ h.Clients ∧ sel (h.heap p) = true
  · rw [if_pos hc]
    unfold Client.offered
    by_cases hr : hasRoom (h.heap p) = true
    · rw [if_pos hr]
      have : (h.heap p).Send.buf.length < (h.heap p).Send.cap := by simpa [hasRoom] using hr
      simp only [List.length_append, List.length_singleton]
      omega
    · rw [if_neg hr]
      exact hcap p
  · rw [if_neg hc]
    exact hcap p

theorem publish_outcome (sel : Client → Bool) (messageBytes : String) (h h2 : Hub)
    (hwf : h.wellFormed)
    (hheap : ∀ p, h2.heap p =
        if p ∈ h.Clients ∧ sel (h.heap p) = true then (h.heap p).offered messageBytes
        else h.heap p)
    (hcl : h2.Clients =
      h.Clients.filter (fun q => !(sel (h.heap q) && !hasRoom (h.heap q)))) :
    publishOutcome sel messageBytes h h2 := by
  refine ⟨?_, ?_⟩
  · intro p hp hs
    have hopen := (hwf.2 p hp).2
    refine ⟨?_, ?_⟩
    · intro hr
      refine ⟨?_, ?_, ?_⟩
      · rw [hcl, List.mem_filter]
        simp [hs, hr]
      · rw [hheap p]; simp [hp, hs, Client.offered, hr]
      · rw [hheap p]; simp [hp, hs, Client.offered, hr]
    · intro hr
      refine ⟨?_, ?_, ?_⟩
      · rw [hcl, List.mem_filter]
        simp [hp, hr]
      · rw [hheap p]; simp [hp, hs, Client.offered, hr, hopen]
      · rw [hheap p]; simp [hp, hs, Client.offered, hr]
  · intro p hp
    refine ⟨?_, ?_⟩
    · rw [hheap p]; simp [hp]
    · rw [hcl, List.mem_filter]
      exact fun h' => hp h'.1

theorem sampleHub_wellFormed : sampleHub.wellFormed := by
  refine ⟨by decide, ?_⟩
  intro p hp
  simp only [sampleHub, List.mem_cons, List.mem_singleton, List.not_mem_nil, or_false] at hp
  rcases hp with rfl | rfl | rfl <;> exact ⟨by decide, rfl⟩

theorem sampleHub_withinCapacity : sampleHub.withinCapacity := by
  intro p
  by_cases h0 : p = 0
  · subst h0
    show (List.replicate 256 "old").length ≤ 256
    rw [List.length_replicate]
  · by_cases h1 : p = 1
    · subst h1
      exact Nat.zero_le _
    · simp only [sampleHub, if_neg h0, if_neg h1, Chan.make]
      exact Nat.zero_le _

/-- C11: on a well-formed hub, `BroadcastToUser(u, m)` with a serializable message does not
panic and changes only registered clients whose `UserID` equals `u`: such a client with room
in its queue gets the serialized message appended. Every client with another `UserID` keeps
its queue and its membership in the map, and so does, for an owner `u` that is not the empty
string, every client with the empty `UserID`. -/
theorem C11_broadcast_to_user (jsonMarshal : WebSocketMessage → Except String String)
    (h : Hub) (u : String) (message : WebSocketMessage) (messageBytes : String)
    (hwf : h.wellFormed) (hser : jsonMarshal message = .ok messageBytes) :
    ∃ h2, BroadcastToUser jsonMarshal h u message = some h2 ∧
      (∀ p, (h.heap p).UserID ≠ u →
        h2.heap p = h.heap p ∧ (p ∈ h2.Clients ↔ p ∈ h.Clients)) ∧
      (∀ p, h2.heap p ≠ h.heap p → p ∈ h.Clients ∧ (h.heap p).UserID = u) ∧
      (∀ p ∈ h.Clients, (h.heap p).UserID = u → hasRoom (h.heap p) = true →
        (h2.heap p).Send.buf = (h.heap p).Send.buf ++ [messageBytes]) ∧
      (u ≠ "" → ∀ p, (h.heap p).UserID = "" →
        h2.heap p = h.heap p ∧ (p ∈ h2.Clients ↔ p ∈ h.Clients)) := by
  obtain ⟨h2, hloop, -, hheap, hcl⟩ :=
    publish_spec (fun c => c.UserID = u) messageBytes h hwf
  have hframe : ∀ p, (h.heap p).UserID ≠ u →
      h2.heap p = h.heap p ∧ (p ∈ h2.Clients ↔ p ∈ h.Clients) := by
    intro p hne
    refine ⟨?_, ?_⟩
    · rw [hheap p]; simp [hne]
    · rw [hcl, List.mem_filter]; simp [hne]
  refine ⟨h2, ?_, hframe, ?_, ?_, ?_⟩
  · simp only [BroadcastToUser, hser]
    rw [broadcastToUserLoop_eq]
    exact hloop
  · intro p hchg
    rw [hheap p] at hchg
    by_cases hc : p ∈ h.Clients ∧ decide ((h.heap p).UserID = u) = true
    · exact ⟨hc.1, by simpa using hc.2⟩
    · rw [if_neg hc] at hchg
      exact absurd rfl hchg
  · intro p hp hu hr
    rw [hheap p]
    simp [hp, hu, Client.offered, hr]
  · intro hne p hp
    exact hframe p (by rw [hp]; exact fun h' => hne h'.symm)

/-- C11 on the sample hub: a message for `alice` leaves the client of `bob` and the client
without a user as they were, in the map and with their queues. -/
theorem C11_broadcast_to_user_witness :
    sampleHub.wellFormed ∧
    sampleMarshal sampleMessage = .ok "crawl_started https://example.com/" ∧
    ∃ h2, BroadcastToUser sampleMarshal sampleHub "alice" sampleMessage = some h2 ∧
      h2.heap 1 = sampleHub.heap 1 ∧ (1 ∈ h2.Clients ↔ 1 ∈ sampleHub.Clients) ∧
      h2.heap 2 = sampleHub.heap 2 ∧ (2 ∈ h2.Clients ↔ 2 ∈ sampleHub.Clients) := by
  refine ⟨sampleHub_wellFormed, rfl, ?_⟩
  obtain ⟨h2, heq, hframe, -, -, hlisten⟩ :=
    C11_broadcast_to_user sampleMarshal sampleHub "alice" sampleMessage
      "crawl_started https://example.com/" sampleHub_wellFormed rfl
  exact ⟨h2, heq, (hframe 1 (by decide)).1, (hframe 1 (by decide)).2,
    (hlisten (by decide) 2 (by decide)).1, (hlisten (by decide) 2 (by decide)).2⟩

theorem removedStayOut_refl (h : Hub) : removedStayOut h h :=
  fun _ _ hp => ⟨hp, Nat.le_refl _⟩

theorem removedStayOut_of_publish (sel : Client → Bool) (messageBytes : String) (h h2 : Hub)
    (hheap : ∀ p, h2.heap p =
        if p ∈ h.Clients ∧ sel (h.heap p) = true then (h.heap p).offered messageBytes
        else h.heap p)
    (hcl : h2.Clients =
      h.Clients.filter (fun q => !(sel (h.heap q) && !hasRoom (h.heap q)))) :
    removedStayOut h h2 := by
  intro p _ hp
  refine ⟨?_, ?_⟩
  · rw [hcl, List.mem_filter]
    exact fun h' => hp h'.1
  · rw [hheap p]; simp [hp]

/-- A step on a well-formed hub within capacity does not panic and leads to such a hub; no
client that was out of the map comes back or has its queue grow. -/
theorem hubStep_spec (jsonMarshal : WebSocketMessage → Except String String) (h : Hub)
    (op : HubOp) (hwf : h.wellFormed) (hcap : h.withinCapacity) :
    ∃ h2, hubStep jsonMarshal h op = some h2 ∧ h2.wellFormed ∧ h2.withinCapacity ∧
      h.next ≤ h2.next ∧ removedStayOut h h2 := by
  cases op with
  | HandleWebSocket token upgraded =>
    cases token with
    | error e => exact ⟨h, rfl, hwf, hcap, Nat.le_refl _, removedStayOut_refl h⟩
    | ok userID =>
      cases upgraded with
      | false => exact ⟨h, rfl, hwf, hcap, Nat.le_refl _, removedStayOut_refl h⟩
      | true =>
        have hfresh : h.next ∉ h.Clients := fun hin => Nat.lt_irrefl _ (hwf.2 _ hin).1
        refine ⟨{ heap := Function.update h.heap h.next
                    { UserID := userID, Send := Chan.make 256 },
                  next := h.next + 1, Clients := h.Clients ++ [h.next] }, ?_, ?_, ?_, ?_, ?_⟩
        · simp [hubStep, HandleWebSocket, Run, hfresh]
        · refine ⟨?_, ?_⟩
          · refine List.Nodup.append hwf.1 (List.nodup_singleton _) ?_
            intro q hq hq2
            rw [List.mem_singleton] at hq2
            exact hfresh (hq2 ▸ hq)
          · intro q hq
            rw [List.mem_append, List.mem_singleton] at hq
            rcases hq with hq | hq
            · have hne : q ≠ h.next := fun he => hfresh (he ▸ hq)
              simp only [Function.update_noteq hne]
              exact ⟨Nat.lt_succ_of_lt (hwf.2 q hq).1, (hwf.2 q hq).2⟩
            · subst hq
              simp [Chan.make]
        · intro q
          by_cases hq : q = h.next
          · subst hq
            simp [Chan.make]
          · simp only [Function.update_noteq hq]
            exact hcap q
        · exact Nat.le_succ _
        · intro q hq hout
          have hne : q ≠ h.next := Nat.ne_of_lt hq
          refine ⟨?_, ?_⟩
          · rw [List.mem_append, List.mem_singleton]
            exact fun h' => h'.elim hout hne
          · simp [Function.update_noteq hne]
  | Unregister client =>
    by_cases hin : client ∈ h.Clients
    · have hopen := (hwf.2 client hin).2
      refine ⟨{ heap := Function.update h.heap client
                  { h.heap client with Send := { (h.heap client).Send with closed := true } },
                next := h.next, Clients := h.Clients.filter (fun q => q ≠ client) },
        ?_, ?_, ?_, Nat.le_refl _, ?_⟩
      · simp [hubStep, Run, hin, Chan.close, hopen, Hub.delete]
      · refine ⟨hwf.1.filter _, ?_⟩
        intro q hq
        rw [List.mem_filter] at hq
        have hne : q ≠ client := by simpa using hq.2
        simp only [Function.update_noteq hne]
        exact hwf.2 q hq.1
      · intro q
        by_cases hq : q = client
        · subst hq
          simp only [Function.update_same]
          exact hcap q
        · simp only [Function.update_noteq hq]
          exact hcap q
      · intro q _ hout
        have hne : q ≠ client := fun he => hout (he ▸ hin)
        refine ⟨?_, ?_⟩
        · rw [List.mem_filter]
          exact fun h' => hout h'.1
        · simp [Function.update_noteq hne]
    · refine ⟨h, ?_, hwf, hcap, Nat.le_refl _, removedStayOut_refl h⟩
      simp [hubStep, Run, hin]
  | Broadcast message =>
    cases hm : jsonMarshal message with
    | error e =>
      refine ⟨h, ?_, hwf, hcap, Nat.le_refl _, removedStayOut_refl h⟩
      simp [hubStep, Run, hm]
    | ok messageBytes =>
      obtain ⟨h2, hloop, hnext, hheap, hcl⟩ := publish_spec (fun _ => true) messageBytes h hwf
      refine ⟨h2, ?_, publish_wellFormed (fun _ => true) messageBytes h h2 hwf hnext hheap hcl,
        publish_withinCapacity (fun _ => true) messageBytes h h2 hcap hheap,
        Nat.le_of_eq hnext.symm,
        removedStayOut_of_publish (fun _ => true) messageBytes h h2 hheap hcl⟩
      simp only [hubStep, Run, hm]
      rw [runBroadcastLoop_eq]
      exact hloop
  | BroadcastToUser userID message =>
    cases hm : jsonMarshal message with
    | error e =>
      refine ⟨h, ?_, hwf, hcap, Nat.le_refl _, removedStayOut_refl h⟩
      simp [hubStep, BroadcastToUser, hm]
    | ok messageBytes =>
      obtain ⟨h2, hloop, hnext, hheap, hcl⟩ :=
        publish_spec (fun c => c.UserID = userID) messageBytes h hwf
      refine ⟨h2, ?_,
        publish_wellFormed (fun c => c.UserID = userID) messageBytes h h2 hwf hnext hheap hcl,
        publish_withinCapacity (fun c => c.UserID = userID) messageBytes h h2 hcap hheap,
        Nat.le_of_eq hnext.symm,
        removedStayOut_of_publish (fun c => c.UserID = userID) messageBytes h h2 hheap hcl⟩
      simp only [hubStep, BroadcastToUser, hm]
      rw [broadcastToUserLoop_eq]
      exact hloop
  | receive client =>
    refine ⟨receive h client, rfl, ?_, ?_, Nat.le_refl _, ?_⟩
    · refine ⟨hwf.1, ?_⟩
      intro q hq
      by_cases hqc : q = client
      · subst hqc
        simp only [receive, Function.update_same]
        exact hwf.2 q hq
      · simp only [receive, Function.update_noteq hqc]
        exact hwf.2 q hq
    · intro q
      by_cases hqc : q = client
      · subst hqc
        simp only [receive, Function.update_same, List.length_tail]
        exact Nat.le_trans (Nat.sub_le _ _) (hcap q)
      · simp only [receive, Function.update_noteq hqc]
        exact hcap q
    · intro q _ hout
      refine ⟨hout, ?_⟩
      by_cases hqc : q = client
      · subst hqc
        simp [receive]
      · simp [receive, Function.update_noteq hqc]

/-- A sequence of steps from a well-formed hub within capacity never panics. -/
theorem hubRun_spec (jsonMarshal : WebSocketMessage → Except String String) :
    ∀ (ops : List HubOp) (h : Hub), h.wellFormed → h.withinCapacity →
      ∃ h2, hubRun jsonMarshal ops h = some h2 ∧ h2.wellFormed ∧ h2.withinCapacity ∧
        h.next ≤ h2.next ∧ removedStayOut h h2 := by
  intro ops
  induction ops with
  | nil => intro h hwf hcap; exact ⟨h, rfl, hwf, hcap, Nat.le_refl _, removedStayOut_refl h⟩
  | cons op ops ih =>
    intro h hwf hcap
    obtain ⟨h1, hstep, hwf1, hcap1, hn1, hout1⟩ := hubStep_spec jsonMarshal h op hwf hcap
    obtain ⟨h2, hrun, hwf2, hcap2, hn2, hout2⟩ := ih h1 hwf1 hcap1
    refine ⟨h2, ?_, hwf2, hcap2, Nat.le_trans hn1 hn2, ?_⟩
    · simp only [hubRun, hstep]
      exact hrun
    · intro p hp hout
      obtain ⟨ha, hb⟩ := hout1 p hp hout
      obtain ⟨hc, hd⟩ := hout2 p (Nat.lt_of_lt_of_le hp hn1) ha
      exact ⟨hc, Nat.le_trans hd hb⟩

theorem NewHub_wellFormed : NewHub.wellFormed :=
  ⟨List.nodup_nil, fun _ hp => absurd hp (List.not_mem_nil _)⟩

theorem NewHub_withinCapacity : NewHub.withinCapacity := fun _ => Nat.le_refl _

/-- C12: on a well-formed hub whose queues are within capacity, the `Broadcast` case of `Run`
and `BroadcastToUser` with a serializable message do not panic, and for every matching
registered client: when its queue is at capacity the client is removed from the map and its
queue is closed, otherwise the message is appended to its queue and it stays registered.
The hub after the publish is again well-formed and within capacity, and so is the hub after
any further sequence of steps, in which no client that is out of the map is put back or has
its queue grow; every hub reached from `NewHub()` is within capacity. -/
theorem C12_backpressure (jsonMarshal : WebSocketMessage → Except String String) (h : Hub)
    (message : WebSocketMessage) (messageBytes : String) (hwf : h.wellFormed)
    (hcap : h.withinCapacity) (hser : jsonMarshal message = .ok messageBytes) :
    (∃ h2, Run jsonMarshal h (.Broadcast message) = some h2 ∧
      publishOutcome (fun _ => true) messageBytes h h2 ∧ h2.wellFormed ∧ h2.withinCapacity) ∧
    (∀ u, ∃ h2, BroadcastToUser jsonMarshal h u message = some h2 ∧
      publishOutcome (fun c => c.UserID = u) messageBytes h h2 ∧ h2.wellFormed ∧
        h2.withinCapacity) ∧
    (∀ p, hasRoom (h.heap p) = false → (h.heap p).Send.buf.length = (h.heap p).Send.cap) ∧
    (∀ ops, ∃ h3, hubRun jsonMarshal ops h = some h3 ∧ h3.wellFormed ∧ h3.withinCapacity ∧
      removedStayOut h h3) ∧
    (∀ ops, ∃ h3, hubRun jsonMarshal ops NewHub = some h3 ∧ h3.withinCapacity) := by
  refine ⟨?_, ?_, ?_, ?_, ?_⟩
  · obtain ⟨h2, hloop, hnext, hheap, hcl⟩ := publish_spec (fun _ => true) messageBytes h hwf
    refine ⟨h2, ?_, publish_outcome (fun _ => true) messageBytes h h2 hwf hheap hcl,
      publish_wellFormed (fun _ => true) messageBytes h h2 hwf hnext hheap hcl,
      publish_withinCapacity (fun _ => true) messageBytes h h2 hcap hheap⟩
    simp only [Run, hser]
    rw [runBroadcastLoop_eq]
    exact hloop
  · intro u
    obtain ⟨h2, hloop, hnext, hheap, hcl⟩ :=
      publish_spec (fun c => c.UserID = u) messageBytes h hwf
    refine ⟨h2, ?_, publish_outcome (fun c => c.UserID = u) messageBytes h h2 hwf hheap hcl,
      publish_wellFormed (fun c => c.UserID = u) messageBytes h h2 hwf hnext hheap hcl,
      publish_withinCapacity (fun c => c.UserID = u) messageBytes h h2 hcap hheap⟩
    simp only [BroadcastToUser, hser]
    rw [broadcastToUserLoop_eq]
    exact hloop
  · intro p hr
    have h1 : ¬ (h.heap p).Send.buf.length < (h.heap p).Send.cap := by simpa [hasRoom] using hr
    have h2 := hcap p
    omega
  · intro ops
    obtain ⟨h3, hrun, hwf3, hcap3, -, hout⟩ := hubRun_spec jsonMarshal ops h hwf hcap
    exact ⟨h3, hrun, hwf3, hcap3, hout⟩
  · intro ops
    obtain ⟨h3, hrun, -, hcap3, -, -⟩ :=
      hubRun_spec jsonMarshal ops NewHub NewHub_wellFormed NewHub_withinCapacity
    exact ⟨h3, hrun, hcap3⟩

/-- C12 on the sample hub: a broadcast removes the client of `alice`, whose queue is full,
and closes its queue; the client of `bob` gets the message and stays registered. -/
theorem C12_backpressure_witness :
    sampleHub.wellFormed ∧ sampleHub.withinCapacity ∧
    sampleMarshal sampleMessage = .ok "crawl_started https://example.com/" ∧
    ∃ h2, Run sampleMarshal sampleHub (.Broadcast sampleMessage) = some h2 ∧
      0 ∉ h2.Clients ∧ (h2.heap 0).Send.closed = true ∧
      1 ∈ h2.Clients ∧ (h2.heap 1).Send.closed = false ∧
      (h2.heap 1).Send.buf = [] ++ ["crawl_started https://example.com/"] := by
  refine ⟨sampleHub_wellFormed, sampleHub_withinCapacity, rfl, ?_⟩
  obtain ⟨h2, heq, hout, -, -⟩ :=
    (C12_backpressure sampleMarshal sampleHub sampleMessage
      "crawl_started https://example.com/" sampleHub_wellFormed sampleHub_withinCapacity rfl).1
  have hfull : hasRoom (sampleHub.heap 0) = false := by
    simp only [hasRoom, sampleHub, if_true, List.length_replicate]
    decide
  have h0 := (hout.1 0 (by decide) rfl).1 hfull
  have h1 := (hout.1 1 (by decide) rfl).2 (by decide)
  exact ⟨h2, heq, h0.1, h0.2.1, h1.1, h1.2.1, h1.2.2⟩

/-- C18: every sequence of steps from `NewHub()` (a connection that registers a newly
allocated client with an open queue, `Unregister`, `Broadcast`, `BroadcastToUser`, and a
receive by a consumer) runs without panic, so no step closes a closed queue or sends on a
closed queue, and in the hub it reaches the keys of the map are distinct and every
registered client has an open queue. `Unregister` of a client that is not in the map, for
having been unregistered or removed by a publish before, returns the hub unchanged. -/
theorem C18_hub_safety (jsonMarshal : WebSocketMessage → Except String String)
    (ops : List HubOp) :
    ∃ h, hubRun jsonMarshal ops NewHub = some h ∧ h.Clients.Nodup ∧
      (∀ p ∈ h.Clients, p < h.next ∧ (h.heap p).Send.closed = false) ∧
      (∀ p, p ∉ h.Clients → Run jsonMarshal h (.Unregister p) = some h) ∧
      (∀ op, ∃ h2, hubStep jsonMarshal h op = some h2) := by
  obtain ⟨h, hrun, hwf, hcap, -, -⟩ :=
    hubRun_spec jsonMarshal ops NewHub NewHub_wellFormed NewHub_withinCapacity
  refine ⟨h, hrun, hwf.1, hwf.2, ?_, ?_⟩
  · intro p hp
    simp [Run, hp]
  · intro op
    obtain ⟨h2, hstep, -⟩ := hubStep_spec jsonMarshal h op hwf hcap
    exact ⟨h2, hstep⟩

/-! ## Re-run -/

theorem rerun_set_eq (userID urlID : String) (now : Nat) (r1 r2 : URLData)
    (h : sameUpToResults userID urlID r1 r2) :
    (if (decide (r1.ID = urlID ∧ r1.UserID = userID)) = true then
        { r1 with
          Status := "queued", Title := none, HTMLVersion := none, HeadingTags := none,
          InternalLinks := none, ExternalLinks := none, BrokenLinks := none,
          HasLoginForm := none, ErrorMessage := none, AnalysisDuration := none,
          UpdatedAt := now }
      else r1) =
    (if (decide (r2.ID = urlID ∧ r2.UserID = userID)) = true then
        { r2 with
          Status := "queued", Title := none, HTMLVersion := none, HeadingTags := none,
          InternalLinks := none, ExternalLinks := none, BrokenLinks := none,
          HasLoginForm := none, ErrorMessage := none, AnalysisDuration := none,
          UpdatedAt := now }
      else r2) := by
  rcases h with h | ⟨hid, huid, hid2, huid2, hurl, -, hcr⟩
  · rw [h]
  · have h1 : decide (r1.ID = urlID ∧ r1.UserID = userID) = true := by simp [hid, huid]
    have h2 : decide (r2.ID = urlID ∧ r2.UserID = userID) = true := by
      simp [← hid2, ← huid2, hid, huid]
    rw [if_pos h1, if_pos h2]
    cases r1
    cases r2
    simp_all

theorem rerun_map_eq (userID urlID : String) (now : Nat) (db1 db2 : DB)
    (h : List.Forall₂ (sameUpToResults userID urlID) db1 db2) :
    db1.map (fun r => if (decide (r.ID = urlID ∧ r.UserID = userID)) = true then
        { r with
          Status := "queued", Title := none, HTMLVersion := none, HeadingTags := none,
          InternalLinks := none, ExternalLinks := none, BrokenLinks := none,
          HasLoginForm := none, ErrorMessage := none, AnalysisDuration := none,
          UpdatedAt := now }
      else r) =
    db2.map (fun r => if (decide (r.ID = urlID ∧ r.UserID = userID)) = true then
        { r with
          Status := "queued", Title := none, HTMLVersion := none, HeadingTags := none,
          InternalLinks := none, ExternalLinks := none, BrokenLinks := none,
          HasLoginForm := none, ErrorMessage := none, AnalysisDuration := none,
          UpdatedAt := now }
      else r) := by
  induction h with
  | nil => rfl
  | cons hr _ ih =>
    rw [List.map_cons, List.map_cons, ih, rerun_set_eq userID urlID now _ _ hr]

/-- C13: `RerunAnalysis` by the owner keeps every row of the table and replaces the row of the
job by the same row with status `queued`, every result column and the failure reason empty,
and a new update time; it dispatches one task. Two orchestrators whose tables differ only
in what an earlier run stored for that job (result columns, failure reason, update time) are
in that same state after `RerunAnalysis`, and so after any operations that follow it, the
completion of the new run included: the record after the re-run is determined by the new
run alone. -/
theorem C13_rerun_clears (E : Env) (s1 s2 : Orchestrator) (userID urlID : String) (now : Nat)
    (hsp : s1.spawned = s2.spawned) (hcr : s1.crawling = s2.crawling)
    (hpub : s1.published = s2.published)
    (hdb : List.Forall₂ (sameUpToResults userID urlID) s1.db s2.db) :
    RerunAnalysis s1 none userID urlID now =
      .ok { db := s1.db.map (fun r =>
              if r.ID = urlID ∧ r.UserID = userID then clearedRow now r else r),
            spawned := s1.spawned ++ [urlID], crawling := s1.crawling,
            published := s1.published } ∧
    RerunAnalysis s2 none userID urlID now =
      .ok { db := s1.db.map (fun r =>
              if r.ID = urlID ∧ r.UserID = userID then clearedRow now r else r),
            spawned := s1.spawned ++ [urlID], crawling := s1.crawling,
            published := s1.published } ∧
    (∀ r ∈ s1.db, r.ID = urlID → r.UserID = userID →
      clearedRow now r ∈
        s1.db.map (fun r => if r.ID = urlID ∧ r.UserID = userID then clearedRow now r else r)) ∧
    (∀ r, (clearedRow now r).ID = r.ID ∧ (clearedRow now r).UserID = r.UserID ∧
      (clearedRow now r).URL = r.URL ∧ (clearedRow now r).CreatedAt = r.CreatedAt ∧
      (clearedRow now r).Status = "queued" ∧ resultEmpty (clearedRow now r) = true ∧
      hasReason (clearedRow now r) = false) ∧
    (∀ r ∈ s1.db.map (fun r =>
          if r.ID = urlID ∧ r.UserID = userID then clearedRow now r else r),
      r.ID = urlID → r.UserID = userID →
        r.Status = "queued" ∧ resultEmpty r = true ∧ hasReason r = false) ∧
    (∀ ops : List Op,
      (Op.RerunAnalysis none userID urlID now :: ops).foldl (step E) s1 =
        (Op.RerunAnalysis none userID urlID now :: ops).foldl (step E) s2) := by
  have heq : RerunAnalysis s1 none userID urlID now = RerunAnalysis s2 none userID urlID now := by
    obtain ⟨db1, sp1, cr1, pub1⟩ := s1
    obtain ⟨db2, sp2, cr2, pub2⟩ := s2
    simp only at hsp hcr hpub hdb
    subst hsp hcr hpub
    simp only [RerunAnalysis, DB.execUpdate]
    rw [rerun_map_eq userID urlID now db1 db2 hdb]
  refine ⟨rerun_eq s1 userID urlID now, ?_, ?_, ?_, ?_, ?_⟩
  · rw [← heq]
    exact rerun_eq s1 userID urlID now
  · intro r hr hid huid
    rw [List.mem_map]
    exact ⟨r, hr, by simp [hid, huid]⟩
  · intro r
    exact ⟨rfl, rfl, rfl, rfl, rfl, rfl, rfl⟩
  · intro r hr hid huid
    simp only [List.mem_map] at hr
    obtain ⟨r0, -, hr0⟩ := hr
    by_cases hsel : r0.ID = urlID ∧ r0.UserID = userID
    · rw [if_pos hsel] at hr0
      rw [← hr0]
      exact ⟨rfl, rfl, rfl⟩
    · rw [if_neg hsel] at hr0
      rw [hr0] at hsel
      exact absurd ⟨hid, huid⟩ hsel
  · intro ops
    have hok : ∃ s, RerunAnalysis s2 none userID urlID now = .ok s := ⟨_, rfl⟩
    obtain ⟨s, hs⟩ := hok
    simp only [List.foldl_cons, step, heq, hs]

/-- C13 on two completed rows of the sample job that hold different results of an earlier
run: after the re-run both tables hold the one row of the job, `queued` and empty, and after
the new crawl of the scenario page both hold the same completed row. -/
theorem C13_rerun_clears_witness :
    List.Forall₂ (sameUpToResults "alice" "job-1") (atRest (completedRow "Old" 3)).db
      (atRest (completedRow "Older" 7)).db ∧
    (∃ s, RerunAnalysis (atRest (completedRow "Old" 3)) none "alice" "job-1" 9 = .ok s ∧
      RerunAnalysis (atRest (completedRow "Older" 7)) none "alice" "job-1" 9 = .ok s ∧
      s.db.map (fun r => (r.ID, r.UserID, r.Status, resultEmpty r, hasReason r)) =
        [("job-1", "alice", "queued", true, false)] ∧
      s.spawned = ["job-1"]) ∧
    ([Op.RerunAnalysis none "alice" "job-1" 9, Op.taskBegin 0 none 10,
        Op.taskEnd 0 sampleInputs].foldl (step sampleEnv) (atRest (completedRow "Old" 3)) =
      [Op.RerunAnalysis none "alice" "job-1" 9, Op.taskBegin 0 none 10,
        Op.taskEnd 0 sampleInputs].foldl (step sampleEnv) (atRest (completedRow "Older" 7))) ∧
    ([Op.RerunAnalysis none "alice" "job-1" 9, Op.taskBegin 0 none 10,
        Op.taskEnd 0 sampleInputs].foldl (step sampleEnv)
          (atRest (completedRow "Older" 7))).db.map
        (fun r => (r.Status, r.Title, r.InternalLinks, r.ErrorMessage)) =
      [("completed", some "Test", some 1, none)] :=
  have hrel : List.Forall₂ (sameUpToResults "alice" "job-1") (atRest (completedRow "Old" 3)).db
      (atRest (completedRow "Older" 7)).db :=
    List.Forall₂.cons (Or.inr ⟨rfl, rfl, rfl, rfl, rfl, rfl, rfl⟩) List.Forall₂.nil
  have h := C13_rerun_clears sampleEnv (atRest (completedRow "Old" 3))
    (atRest (completedRow "Older" 7)) "alice" "job-1" 9 rfl rfl rfl hrel
  ⟨hrel, ⟨_, h.1, h.2.1, by decide, rfl⟩,
    h.2.2.2.2.2 [Op.taskBegin 0 none 10, Op.taskEnd 0 sampleInputs], by decide⟩

/-! ## Probes and the delivered result -/

/-- C14, the code at a failing input: the crawl of the sample page spawns two probes, which
answer 404 and a failed lookup, so two entries are due; `CrawlURL` returns without waiting
for them, and when neither probe has finished by then the `crawl_completed` event and the
stored row both carry an empty list of broken links. -/
theorem C14_probes_not_awaited :
    (CrawlURL sampleEnv "https://example.com/" (.ok sampleResponse) 0).toOption.map
        (fun st => (st.probes, st.result.BrokenLinks)) =
      some (["https://example.com/x", "https://other.example/y"], []) ∧
    (probesApplied sampleProbeOutcomes CrawlResult.init).BrokenLinks.length = 2 ∧
    (performCrawl sampleEnv sampleDB none "job-1" 2 sampleInputs).1.map
        (fun p => (p.message.Type_, p.message.Data.map (fun r => r.BrokenLinks))) =
      [("crawl_started", none), ("crawl_completed", some [])] ∧
    (performCrawl sampleEnv sampleDB none "job-1" 2 sampleInputs).2.map
        (fun r => (r.Status, r.BrokenLinks)) =
      [("completed", some [])] := by
  decide

/-! ## Failed crawls -/

/-- C15: when the row lookup succeeds, `CrawlURL` returns an error and the update is executed,
`performCrawl` publishes `crawl_started` and then exactly one `crawl_error` event carrying
the error text, no `crawl_completed` event, and the table it leaves differs from the one it
found only in the row of the job, where the status is `error`, the failure reason is the
error text and the update time is new: no result column is written. -/
theorem C15_failed_crawl (E : Env) (db : DB) (urlID : String) (tStart : Nat)
    (inp : CrawlInputs) (row : URLData) (err : String)
    (hrow : db.queryRow urlID = some row)
    (herr : CrawlURL E row.URL inp.fetch inp.elapsed = .error err)
    (hupd : inp.updErr = none) :
    (performCrawl E db none urlID tStart inp).1.map
        (fun p => (p.userID, p.message.Type_, p.message.Error)) =
      [(row.UserID, "crawl_started", ""), (row.UserID, "crawl_error", err)] ∧
    (∀ p ∈ (performCrawl E db none urlID tStart inp).1, p.message.Type_ ≠ "crawl_completed" ∧
      p.message.Data = none) ∧
    (performCrawl E db none urlID tStart inp).2 =
      db.map (fun r =>
        if r.ID = urlID then
          { r with Status := "error", UpdatedAt := inp.tUpd, ErrorMessage := some err }
        else r) := by
  have hne : err ≠ "" := CrawlURL_error_ne_empty E row.URL inp.fetch inp.elapsed err herr
  have hev : (performCrawl E db none urlID tStart inp).1 =
      [{ userID := row.UserID,
         message :=
           { Type_ := "crawl_started", URL := row.URL, Status := "running", Data := none,
             Error := "", Progress := 0, Message := "Starting to crawl URL",
             Timestamp := tStart } },
       { userID := row.UserID,
         message :=
           { Type_ := "crawl_error", URL := row.URL, Status := "error", Data := none,
             Error := err, Progress := 0, Message := "Crawling failed",
             Timestamp := inp.tMsg } }] := by
    simp [performCrawl, performCrawlBegin, hrow, performCrawlEnd, herr]
  refine ⟨?_, ?_, ?_⟩
  · rw [hev]; rfl
  · intro p hp
    rw [hev] at hp
    simp only [List.mem_cons, List.mem_singleton, List.not_mem_nil, or_false] at hp
    rcases hp with rfl | rfl
    · exact ⟨show ("crawl_started" : String) ≠ "crawl_completed" by decide, rfl⟩
    · exact ⟨show ("crawl_error" : String) ≠ "crawl_completed" by decide, rfl⟩
  · simp only [performCrawl, performCrawlBegin, hrow, performCrawlEnd, herr, hupd,
      UpdateURLStatus, DB.execUpdate]
    apply List.map_congr_left
    intro r _
    by_cases hid : r.ID = urlID
    · simp [hid, updateURLStatusSet, hne]
    · simp [hid]

/-- C15 on the sample job whose fetch times out. -/
theorem C15_failed_crawl_witness :
    sampleDB.queryRow "job-1" = some (insertedRow "job-1" "alice" "https://example.com/" 0) ∧
    (performCrawl sampleEnv sampleDB none "job-1" 2 sampleTimeout).1.map
        (fun p => (p.userID, p.message.Type_, p.message.Error)) =
      [("alice", "crawl_started", ""),
       ("alice", "crawl_error", "failed to fetch URL: context deadline exceeded")] ∧
    (performCrawl sampleEnv sampleDB none "job-1" 2 sampleTimeout).2.map
        (fun r => (r.Status, r.ErrorMessage, r.Title, r.BrokenLinks, r.AnalysisDuration)) =
      [("error", some "failed to fetch URL: context deadline exceeded", none, none, none)] := by
  have h := C15_failed_crawl sampleEnv sampleDB "job-1" 2 sampleTimeout
    (insertedRow "job-1" "alice" "https://example.com/" 0)
    "failed to fetch URL: context deadline exceeded" rfl rfl rfl
  refine ⟨rfl, h.1, ?_⟩
  rw [h.2.2]
  rfl

/-! ## Dispatch of execution tasks -/

/-- C16, refuted as stated: the sample job is started and its task is crawling, so the job is
`running` with one active task; a second `StartCrawling` is accepted and dispatches a second
task, and both tasks of the job crawl at the same time. -/
theorem C16_counterexample :
    (run sampleEnv (startWhileRunning.take 3)).db.map (fun r => r.Status) = ["running"] ∧
    activeTasks (run sampleEnv (startWhileRunning.take 3)) "job-1" = 1 ∧
    (StartCrawling (run sampleEnv (startWhileRunning.take 3)) none "alice" "job-1" 6).toOption.map
        (fun s => activeTasks s "job-1") = some 2 ∧
    (run sampleEnv startWhileRunning).crawling.map (fun t => t.1) = ["job-1", "job-1"] ∧
    activeTasks (run sampleEnv startWhileRunning) "job-1" = 2 := by
  decide

/-- C16, amended: `StartCrawling` and `RerunAnalysis` check no status. Whatever the status of
the job, also `running`, a call that the database accepts sets the status of the row of the
job owned by the caller (`running` for `StartCrawling`, `queued` with the stored result
cleared for `RerunAnalysis`) and dispatches exactly one new execution task for the job, so
the number of active tasks of the job grows by one and that of every other job stays; only
a database error rejects the call, and then nothing is dispatched. -/
theorem C16_start_dispatches (s : Orchestrator) (userID urlID : String) (now : Nat) :
    StartCrawling s none userID urlID now =
      .ok { db := s.db.map (fun r =>
              if r.ID = urlID ∧ r.UserID = userID then withStatus "running" now r else r),
            spawned := s.spawned ++ [urlID], crawling := s.crawling,
            published := s.published } ∧
    RerunAnalysis s none userID urlID now =
      .ok { db := s.db.map (fun r =>
              if r.ID = urlID ∧ r.UserID = userID then clearedRow now r else r),
            spawned := s.spawned ++ [urlID], crawling := s.crawling,
            published := s.published } ∧
    (∀ r ∈ s.db, r.ID = urlID → r.UserID = userID →
      withStatus "running" now r ∈ s.db.map (fun r =>
          if r.ID = urlID ∧ r.UserID = userID then withStatus "running" now r else r) ∧
      (withStatus "running" now r).Status = "running" ∧
      clearedRow now r ∈ s.db.map (fun r =>
          if r.ID = urlID ∧ r.UserID = userID then clearedRow now r else r) ∧
      (clearedRow now r).Status = "queued") ∧
    (StartCrawling s none userID urlID now).toOption.map (fun s2 => activeTasks s2 urlID) =
      some (activeTasks s urlID + 1) ∧
    (RerunAnalysis s none userID urlID now).toOption.map (fun s2 => activeTasks s2 urlID) =
      some (activeTasks s urlID + 1) ∧
    (∀ other, other ≠ urlID →
      (StartCrawling s none userID urlID now).toOption.map (fun s2 => activeTasks s2 other) =
        some (activeTasks s other) ∧
      (RerunAnalysis s none userID urlID now).toOption.map (fun s2 => activeTasks s2 other) =
        some (activeTasks s other)) ∧
    (∀ e, StartCrawling s (some e) userID urlID now = .error e ∧
      RerunAnalysis s (some e) userID urlID now = .error e) := by
  refine ⟨start_eq s userID urlID now, rerun_eq s userID urlID now, ?_, ?_, ?_, ?_, ?_⟩
  · intro r hr hid huid
    refine ⟨?_, rfl, ?_, rfl⟩
    · rw [List.mem_map]
      exact ⟨r, hr, by simp [hid, huid]⟩
    · rw [List.mem_map]
      exact ⟨r, hr, by simp [hid, huid]⟩
  · simp [StartCrawling, DB.execUpdate, Except.toOption, activeTasks, List.count_append]
    omega
  · simp [RerunAnalysis, DB.execUpdate, Except.toOption, activeTasks, List.count_append]
    omega
  · intro other hne
    have hne2 : ¬ urlID = other := fun h => hne h.symm
    have hc : List.count other [urlID] = 0 := by
      rw [List.count_singleton]
      simp [hne2]
    constructor
    · simp [StartCrawling, DB.execUpdate, Except.toOption, activeTasks, List.count_append, hc]
    · simp [RerunAnalysis, DB.execUpdate, Except.toOption, activeTasks, List.count_append, hc]
  · intro e
    exact ⟨rfl, rfl⟩

/-! ## Ownership -/

/-- C17, the code at a failing input: user `mallory` starts the job of `alice`. The update of
`StartCrawling` matches no row and leaves the record as it was, yet a task is dispatched;
the task publishes `crawl_started` and `crawl_completed` for the job, to `alice`, and
overwrites the record with status `completed` and a result. `StopCrawling` by `mallory`
changes nothing and dispatches nothing. -/
theorem C17_task_ignores_owner :
    (run sampleEnv (startByOtherUser.take 1)).db.map (fun r => (r.UserID, r.Status, hasResult r))
      = [("alice", "queued", false)] ∧
    (run sampleEnv (startByOtherUser.take 2)).db.map (fun r => (r.UserID, r.Status, hasResult r))
      = [("alice", "queued", false)] ∧
    (run sampleEnv (startByOtherUser.take 2)).spawned = ["job-1"] ∧
    (run sampleEnv startByOtherUser).db.map (fun r => (r.UserID, r.Status, hasResult r, r.Title))
      = [("alice", "completed", true, some "Test")] ∧
    (run sampleEnv startByOtherUser).published.map Publish.kind =
      [("alice", "crawl_started"), ("alice", "crawl_completed")] ∧
    ((StopCrawling (run sampleEnv (startByOtherUser.take 1)) none "mallory" "job-1" 1).toOption.map
        (fun s => (s.db.map (fun r => (r.Status, r.UpdatedAt)), s.spawned, s.published.length))
      = some ([("queued", 0)], [], 0)) := by
  decide

end WebCrawler
